import Mathlib

/-!
# Verification of the llm-quick-scroll session reconciliation engine

Shallow embedding of `src/content.js` (the content script of the
llm-quick-scroll browser extension).  The embedding models:

* turn elements located by the provider's `selectors.queries`
  (`Elem`: the element's `id` attribute, the result of
  `provider.extractTextContent` on it, and its `innerText`);
* the session record store `sessionQueries` (`QueryData`);
* `generateSummary`, `addQueryToSession`, `validateSessionQueries`,
  `rebuildNavigationFromSession`, `processChatElements`,
  `refreshData` / `handleUrlChange`;
* the navigation list state (`NavItem`), `filterNavItems`, `clearSearch`,
  `handleArrowNavigation`, `updateNavigationHighlight`,
  `clearNavigationHighlight`, and `createNavBar`'s initial classes.

Modelling conventions:

* `element.id` is a `String`; `""` stands for an absent id (JS falsy).
* `provider.extractTextContent element` is modelled by the field
  `Elem.extract : Option String`; `none` means the call throws
  (caught by the `try`/`catch` blocks in the source), `some s` is the
  returned string (possibly empty, i.e. falsy).
* `document.getElementById` is modelled as a first-match lookup over the
  located turn elements (the only elements whose ids the engine consults).
* The unique id `query-${Date.now()}-${index}` generated for elements that
  lack an id is modelled by a counter-driven generator `freshId` threaded
  through the state (an injective token stream, like the wall-clock ids;
  none of the proofs needs more than its non-emptiness).
* The wall-clock `timestamp` field of a query record is omitted: no code
  path reads it.
* `String.toLower` models JavaScript `toLowerCase` (they agree on ASCII).
* Timers (`setTimeout` debouncing) collapse: the claims are about the
  state after the scheduled work has run, and the event model is
  single-threaded.
-/

namespace QuickScroll

/-- `MAX_SUMMARY_WORDS` from content.js. -/
def MAX_SUMMARY_WORDS : Nat := 10

/-- Whitespace test used by `trim` and `/\s+/` (ASCII whitespace). -/
def isWs (c : Char) : Bool := c.isWhitespace

/-- Character-list core of JavaScript `String.prototype.trim`. -/
def trimList (l : List Char) : List Char :=
  ((l.dropWhile isWs).reverse.dropWhile isWs).reverse

/-- JavaScript `s.trim()`. -/
def jsTrim (s : String) : String := String.mk (trimList s.data)

/-- Splits a character list at each whitespace character (producing empty
chunks inside whitespace runs). -/
def splitWsAux : List Char → List Char → List (List Char)
  | [], acc => [acc.reverse]
  | c :: cs, acc =>
      if isWs c then acc.reverse :: splitWsAux cs [] else splitWsAux cs (c :: acc)

/-- JavaScript `s.split(/\s+/)` restricted to already-trimmed strings:
on `""` it yields `[""]` (the JS quirk), otherwise the whitespace-separated
words. -/
def splitWsTrimmed (s : String) : List String :=
  if s = "" then [""]
  else ((splitWsAux s.data []).filter (fun w => w ≠ [])).map (fun w => String.mk w)

/-- JavaScript `words.join(' ')`. -/
def joinWords : List String → String
  | [] => ""
  | [w] => w
  | w :: ws => w ++ " " ++ joinWords ws

/-- `generateSummary` from content.js (lines 1510-1517). -/
def generateSummary (text : String) : String :=
  if text = "" then "No content"
  else
    let words := splitWsTrimmed (jsTrim text)
    if MAX_SUMMARY_WORDS < words.length then
      joinWords (words.take MAX_SUMMARY_WORDS) ++ "..."
    else
      joinWords words

/-- One record of `sessionQueries` (`queryData` objects built in
`processChatElements`).  The unread `timestamp` field is omitted. -/
structure QueryData where
  qid : String
  text : String
  elementId : String
  index : Nat
  deriving DecidableEq, Repr

/-- `addQueryToSession` from content.js (lines 1143-1155): returns the
pushed-or-not flag together with the new `sessionQueries`. -/
def addQueryToSession (sessionQueries : List QueryData) (queryData : QueryData) :
    Bool × List QueryData :=
  if sessionQueries.any (fun q => q.qid = queryData.qid || q.text = queryData.text) then
    (false, sessionQueries)
  else
    (true, sessionQueries ++ [queryData])

/-- JavaScript `s.toLowerCase()` (ASCII model). -/
def jsToLower (s : String) : String := String.mk (s.data.map Char.toLower)

/-- JavaScript `hay.includes(needle)`. -/
def jsIncludes (hay needle : String) : Bool := decide (needle.data <:+: hay.data)

/-- A turn element located by `document.querySelectorAll(selectors.queries)`.
`eid` is the `id` attribute (`""` = absent, JS falsy); `extract` is the
result of `currentProvider.extractTextContent` on the element (`none` =
the call throws); `innerText` is the element's rendered text. -/
structure Elem where
  eid : String
  extract : Option String
  innerText : String
  deriving DecidableEq, Repr

/-- The located turn elements, in tree order. -/
structure Dom where
  elems : List Elem
  deriving DecidableEq, Repr

/-- Index of the first element carrying id `i` (`document.getElementById`,
restricted to the located turn elements — the only ids the engine stores
and looks up).  `getElementById("")` is `null` in JS. -/
def findElemIdxById (dom : Dom) (i : String) : Option Nat :=
  if i = "" then none else dom.elems.findIdx? (fun e => e.eid = i)

/-- `document.getElementById` as an element lookup. -/
def getElementById (dom : Dom) (i : String) : Option Elem :=
  match findElemIdxById dom i with
  | some n => dom.elems[n]?
  | none => none

/-- The text-equality check shared by `validateSessionQueries` and the
content-matching scans: `elementText && elementText.trim() ===
queryData.text.trim()`, where a throwing `extractTextContent` (modelled by
`none`) is caught and treated as no match. -/
def confirmText (el : Elem) (q : QueryData) : Bool :=
  match el.extract with
  | some t => t ≠ "" && jsTrim t = jsTrim q.text
  | none => false

/-- The state mutated by one reconciliation cycle: the tree (element ids
are assigned in place), `sessionQueries`, and the generator behind the
unique `query-${Date.now()}-${index}` ids (modelled as a counter). -/
structure AppState where
  dom : Dom
  store : List QueryData
  nextFresh : Nat
  deriving DecidableEq, Repr

/-- A generated unique element id (`query-${Date.now()}-${index}` in the
source; modelled as a counter-indexed token). -/
def freshId (n : Nat) : String := String.mk ('q' :: (Nat.repr n).data)

/-- Body of the `queryElements.forEach` loop of `processChatElements`
(lines 1579-1610) at element position `i`: extract text (errors caught,
element skipped), skip blank text, assign an id to id-less elements,
build `queryData` and `addQueryToSession` it. -/
def ingestStep (st : AppState) (i : Nat) : AppState :=
  match st.dom.elems[i]? with
  | none => st
  | some el =>
    match el.extract with
    | none => st
    | some t =>
      if t ≠ "" ∧ jsTrim t ≠ "" then
        let (queryId, st1) :=
          if el.eid = "" then
            (freshId st.nextFresh,
             { st with
                dom := ⟨st.dom.elems.set i { el with eid := freshId st.nextFresh }⟩
                nextFresh := st.nextFresh + 1 })
          else (el.eid, st)
        let queryData : QueryData :=
          { qid := queryId, text := jsTrim t, elementId := queryId
            index := st1.store.length }
        { st1 with store := (addQueryToSession st1.store queryData).2 }
      else st

/-- The whole ingestion phase of `processChatElements`: the loop over the
`querySelectorAll` snapshot. -/
def ingestAll (st : AppState) : AppState :=
  (List.range st.dom.elems.length).foldl ingestStep st

/-- Linear content-matching scan over the located turn elements (the
`for (const element of currentDOMQueries)` loops; per-element extraction
errors are caught and the search continues). -/
def scanFind (elems : List Elem) (q : QueryData) : Option Elem :=
  elems.find? (fun el => confirmText el q)

/-- The per-record body of `validateSessionQueries` (lines 1171-1218):
try the stored element id with text confirmation, else a full
content-matching scan that may rebind `elementId`; returns the validity
flag and the (possibly rebound) record. -/
def validateOne (dom : Dom) (q : QueryData) : Bool × QueryData :=
  let idValid :=
    if q.elementId ≠ "" then
      match getElementById dom q.elementId with
      | some el => confirmText el q
      | none => false
    else false
  if idValid then (true, q)
  else
    match scanFind dom.elems q with
    | some el =>
        (true,
         if el.eid ≠ "" ∧ el.eid ≠ q.elementId then { q with elementId := el.eid } else q)
    | none => (false, q)

/-- `validateSessionQueries` (lines 1161-1233): maps `validateOne` over
`sessionQueries`, drops invalid records, and re-assigns `index` by live
position when (and only when) something was removed.  The return value and
the new `sessionQueries` coincide (the source mutates the shared record
objects and reassigns the array on removal). -/
def validateSessionQueries (dom : Dom) (store : List QueryData) : List QueryData :=
  let results := store.map (validateOne dom)
  let valids := (results.filter (fun r => r.1)).map (fun r => r.2)
  if valids.length = results.length then valids
  else valids.enum.map (fun p => { p.2 with index := p.1 })

/-- One entry of the rebuilt navigation list (a `.nav-item` node created by
`addNavItem`): its `innerHTML` summary, the `targetElement.innerText`
stored as full text, its DOM id, and whether the target is a synthesized
placeholder (`createPlaceholderElement`). -/
structure NavEntry where
  summary : String
  fullText : String
  navItemId : String
  isPlaceholder : Bool
  deriving DecidableEq, Repr

/-- `elementId.replace(/[^a-zA-Z0-9-_]/g, '')` in `addNavItem`. -/
def sanitizeId (s : String) : String :=
  String.mk (s.data.filter (fun c => c.isAlphanum || c = '-' || c = '_'))

/-- `addNavItem` (lines 1526-1560) for a live target element at position
`n` of the tree: assign the target an id if it lacks one, skip the item if
a nav item for this target already exists this cycle, else append the
entry.  Returns the (possibly mutated) tree and entry list. -/
def addNavItemLive (dom : Dom) (entries : List NavEntry) (summary : String)
    (elementIdArg : String) (n : Nat) : Dom × List NavEntry :=
  match dom.elems[n]? with
  | none => (dom, entries)
  | some el =>
    let (el1, dom1) :=
      if el.eid = "" then
        let el' := { el with eid := "ai-nav-target-query-" ++ sanitizeId elementIdArg }
        (el', ⟨dom.elems.set n el'⟩)
      else (el, dom)
    let navItemId := "nav-item-for-" ++ el1.eid
    if entries.any (fun e => e.navItemId = navItemId) then (dom1, entries)
    else
      (dom1, entries ++ [{ summary := summary, fullText := el1.innerText
                           navItemId := navItemId, isPlaceholder := false }])

/-- `addNavItem` for a placeholder target (`createPlaceholderElement`
builds an id-less, hidden, empty `div`, so `addNavItem` assigns it the
synthesized id and reads an empty `innerText`). -/
def addNavItemPlaceholder (entries : List NavEntry) (summary : String)
    (elementIdArg : String) : List NavEntry :=
  let navItemId := "nav-item-for-" ++ ("ai-nav-target-query-" ++ sanitizeId elementIdArg)
  if entries.any (fun e => e.navItemId = navItemId) then entries
  else entries ++ [{ summary := summary, fullText := ""
                     navItemId := navItemId, isPlaceholder := true }]

/-- Target resolution of the `validQueries.forEach` loop (lines
1250-1284): first `document.getElementById(queryData.elementId)` with no
text check, else a content-matching scan that rebinds `elementId`; `none`
means a placeholder will be synthesized. -/
def resolveTarget (dom : Dom) (q : QueryData) : Option Nat × QueryData :=
  match (if q.elementId ≠ "" then findElemIdxById dom q.elementId else none) with
  | some n => (some n, q)
  | none =>
    match dom.elems.findIdx? (fun el => confirmText el q) with
    | some n =>
      match dom.elems[n]? with
      | some el =>
        (some n,
         if el.eid ≠ "" ∧ el.eid ≠ q.elementId then { q with elementId := el.eid } else q)
      | none => (some n, q)
    | none => (none, q)

/-- One pass of the `validQueries.forEach` loop of
`rebuildNavigationFromSession` (lines 1250-1288) at display position
`idx`: resolve a render target, then `addNavItem` (live or placeholder). -/
def rebuildStep (dom : Dom) (idx : Nat) (q : QueryData) (entries : List NavEntry) :
    Dom × QueryData × List NavEntry :=
  let rq := resolveTarget dom q
  let summary :=
    "<strong>" ++ Nat.repr (idx + 1) ++ ".</strong> " ++ generateSummary rq.2.text
  let elementIdArg := "session-query-" ++ Nat.repr idx
  match rq.1 with
  | some n =>
    ((addNavItemLive dom entries summary elementIdArg n).1, rq.2,
     (addNavItemLive dom entries summary elementIdArg n).2)
  | none => (dom, rq.2, addNavItemPlaceholder entries summary elementIdArg)

/-- The whole `validQueries.forEach` loop: threads the tree and the
in-place record mutations, counting display positions from 0 (rendered as
`idx + 1`). -/
def rebuildGo : Dom → Nat → List QueryData → List NavEntry →
    Dom × List QueryData × List NavEntry
  | dom, _, [], entries => (dom, [], entries)
  | dom, idx, q :: qs, entries =>
    let (dom1, q1, entries1) := rebuildStep dom idx q entries
    let (dom2, qs2, entries2) := rebuildGo dom1 (idx + 1) qs entries1
    (dom2, q1 :: qs2, entries2)

/-- `rebuildNavigationFromSession` (lines 1238-1289): clear the list,
validate the session, and build one nav item per validated record. -/
def rebuildNavigationFromSession (dom : Dom) (store : List QueryData) :
    Dom × List QueryData × List NavEntry :=
  let validated := validateSessionQueries dom store
  rebuildGo dom 0 validated []

/-- `processChatElements` (lines 1565-1621): ingest every located turn
element (per-element errors caught), then rebuild the navigation from the
session (which revalidates it).  Returns the new state and the rebuilt
Navigation Entries. -/
def processChatElements (st : AppState) : AppState × List NavEntry :=
  let st1 := ingestAll st
  let (dom2, store2, entries) := rebuildNavigationFromSession st1.dom st1.store
  ({ st1 with dom := dom2, store := store2 }, entries)

/-- `refreshData` (lines 1025-1050): clear `sessionQueries`, then run a
full `processChatElements` cycle (the 500ms loading delay collapses in the
single-threaded event model). -/
def refreshData (st : AppState) : AppState × List NavEntry :=
  processChatElements { st with store := [] }

/-- Page-level state for URL-change handling: the tracked address, the
active provider's name (if any), and the engine state.  On a real
navigation the caller's `app.dom` already holds the new page's tree. -/
structure PageState where
  currentUrl : String
  providerName : Option String
  app : AppState
  deriving DecidableEq, Repr

/-- `handleUrlChange` (lines 1057-1080), parametrized by the provider
resolver (`ProviderFactory.getCurrentProvider`, a pure function of the
address).  Returns the new page state and, when a refresh cycle ran, the
rebuilt entries. -/
def handleUrlChange (resolve : String → Option String) (newUrl : String)
    (ps : PageState) : PageState × Option (List NavEntry) :=
  if newUrl = ps.currentUrl then (ps, none)
  else
    let ps1 := { ps with currentUrl := newUrl }
    match resolve newUrl with
    | some p =>
      if ps.providerName = some p then
        let (app', es) := refreshData ps1.app
        ({ ps1 with app := app' }, some es)
      else
        let (app', es) := refreshData ps1.app
        ({ ps1 with providerName := some p, app := app' }, some es)
    | none => (ps1, none)

/-- A rendered `.nav-item` as the search/keyboard code sees it.
`summary`/`fullText` are the creation-time strings whose lowercasings
`addNavItem` stored in `dataset.summary`/`dataset.fullText`; `display` is
`style.display`; `offsetParentNull` models `offsetParent === null`
(the item not being rendered); `highlighted` is the
`nav-item-highlighted` class; `clicked` records a `click()` activation. -/
structure NavItem where
  summary : String
  fullText : String
  display : String
  offsetParentNull : Bool
  highlighted : Bool
  clicked : Bool
  deriving DecidableEq, Repr

/-- The sidebar state touched by search and keyboard navigation:
the `collapsed` class on `#ai-nav-bar`, the `ai-nav-collapsed` class on
`body`, `allNavItems`, the search field's value, and the keyboard cursor
(`currentNavigationIndex`, initially -1, and `keyboardNavigationActive`). -/
structure NavState where
  collapsed : Bool
  bodyCollapsed : Bool
  items : List NavItem
  searchValue : String
  currentNavigationIndex : Int
  keyboardNavigationActive : Bool
  deriving DecidableEq, Repr

/-- `clearNavigationHighlight` (lines 1897-1901). -/
def clearNavigationHighlight (ns : NavState) : NavState :=
  { ns with
    items := ns.items.map (fun it => { it with highlighted := false })
    currentNavigationIndex := -1
    keyboardNavigationActive := false }

/-- `resetNavigationIndex` (lines 1906-1908). -/
def resetNavigationIndex (ns : NavState) : NavState :=
  clearNavigationHighlight ns

/-- `filterNavItems` (lines 1767-1785): show everything on an empty term,
else match the term against the stored lowercased summary and full text;
then reset the keyboard cursor. -/
def filterNavItems (searchTerm : String) (ns : NavState) : NavState :=
  let items := ns.items.map (fun it =>
    if searchTerm = "" then { it with display := "block" }
    else
      let matchesSearch :=
        jsIncludes (jsToLower it.summary) searchTerm ||
          jsIncludes (jsToLower it.fullText) searchTerm
      { it with display := if matchesSearch then "block" else "none" })
  resetNavigationIndex { ns with items := items }

/-- `handleSearch` (lines 1747-1761) after its 200ms debounce: filter by
`searchInput.value.toLowerCase().trim()`. -/
def handleSearch (ns : NavState) : NavState :=
  filterNavItems (jsToLower (jsTrim ns.searchValue)) ns

/-- `clearSearch` (lines 1790-1797). -/
def clearSearch (ns : NavState) : NavState :=
  filterNavItems "" { ns with searchValue := "" }

/-- The visibility filter of `handleArrowNavigation` (lines 1833-1835):
`item.style.display !== 'none' && item.offsetParent !== null`. -/
def navItemVisible (it : NavItem) : Bool :=
  it.display ≠ "none" && !it.offsetParentNull

/-- Positions (into `allNavItems`) of the currently visible items. -/
def visibleIdx (items : List NavItem) : List Nat :=
  (items.enum.filter (fun p => navItemVisible p.2)).map (fun p => p.1)

/-- `updateNavigationHighlight` (lines 1876-1892): clear every highlight,
then highlight the item at `currentNavigationIndex` of the visible subset
(scrolling it into view, a pure presentation effect). -/
def updateNavigationHighlight (ns : NavState) : NavState :=
  let vis := visibleIdx ns.items
  let tgt : Option Nat :=
    if 0 ≤ ns.currentNavigationIndex ∧ ns.currentNavigationIndex < vis.length then
      vis[ns.currentNavigationIndex.toNat]?
    else none
  { ns with
    items := ns.items.enum.map (fun p =>
      { p.2 with highlighted := decide (some p.1 = tgt) }) }

/-- The keys `handleArrowNavigation` reacts to; `other` covers every key
outside `['ArrowUp', 'ArrowDown', 'Enter', 'Escape']`. -/
inductive Key
  | arrowUp | arrowDown | enter | escape | other
  deriving DecidableEq, Repr

/-- `document.activeElement` as the handler classifies it: the search
field, some other `INPUT`/`TEXTAREA`/contenteditable control, or anything
else (body, links, ...). -/
inductive ActiveElem
  | searchField | otherInputLike | plain
  deriving DecidableEq, Repr

/-- The `activeElement.tagName === 'INPUT' || ... TEXTAREA ||
contentEditable === 'true'` test. -/
def isInputLike : ActiveElem → Bool
  | .searchField => true
  | .otherInputLike => true
  | .plain => false

/-- `item.click()` on the visible item at cursor position `k`: the click
listener scrolls to the target and marks the item active (modelled by
`clicked`). -/
def clickVisibleItem (ns : NavState) (k : Nat) : NavState :=
  match (visibleIdx ns.items)[k]? with
  | some i =>
    { ns with
      items := ns.items.enum.map (fun p =>
        if p.1 = i then { p.2 with clicked := true } else p.2) }
  | none => ns

/-- `handleArrowNavigation` (lines 1805-1870). -/
def handleArrowNavigation (key : Key) (focus : ActiveElem) (ns : NavState) : NavState :=
  if ns.collapsed || ns.items.length = 0 then ns
  else if key = Key.other then ns
  else if isInputLike focus then
    if key = Key.escape ∧ focus = ActiveElem.searchField then
      clearNavigationHighlight (clearSearch ns)
    else ns
  else
    let vis := visibleIdx ns.items
    if vis.length = 0 then ns
    else
      match key with
      | .arrowDown =>
        let ns1 := { ns with
          keyboardNavigationActive := true
          currentNavigationIndex := (ns.currentNavigationIndex + 1) % (vis.length : Int) }
        updateNavigationHighlight ns1
      | .arrowUp =>
        let ns1 := { ns with
          keyboardNavigationActive := true
          currentNavigationIndex :=
            if ns.currentNavigationIndex ≤ 0 then ((vis.length : Int) - 1)
            else ns.currentNavigationIndex - 1 }
        updateNavigationHighlight ns1
      | .enter =>
        if ns.keyboardNavigationActive ∧ 0 ≤ ns.currentNavigationIndex then
          clickVisibleItem ns ns.currentNavigationIndex.toNat
        else ns
      | .escape => clearNavigationHighlight ns
      | .other => ns

/-- Whether the page already carries `#ai-nav-bar`, whether a provider
resolved, and the sidebar state `createNavBar` builds. -/
structure Page where
  navBarExists : Bool
  providerAvailable : Bool
  nav : NavState
  deriving DecidableEq, Repr

/-- `createNavBar` (lines 1320-1410): no-op when the bar exists or no
provider resolved; otherwise the bar is created with the `collapsed`
class and `body` gains `ai-nav-collapsed` (lines 1333 and 1375), with an
empty item list and an idle keyboard cursor. -/
def createNavBar (p : Page) : Page :=
  if p.navBarExists then p
  else if !p.providerAvailable then p
  else
    { p with
      navBarExists := true
      nav :=
        { collapsed := true, bodyCollapsed := true, items := []
          searchValue := "", currentNavigationIndex := -1
          keyboardNavigationActive := false } }

/-- The item of `items` at position `i` is highlighted exactly when
`some i = tgt` (used to state where the keyboard highlight sits). -/
def highlightOnlyAt (items : List NavItem) (tgt : Option Nat) : Prop :=
  ∀ j it, items[j]? = some it → (it.highlighted = true ↔ some j = tgt)

/-! ## Helper lemmas -/

lemma head_isWs_false_of_dropWhile_eq_cons {l : List Char} {c : Char} {cs : List Char}
    (h : l.dropWhile isWs = c :: cs) : isWs c = false := by
  have h2 := List.head?_dropWhile_not isWs l
  rw [h] at h2
  simpa using h2

lemma dropWhile_eq_self_of_head_false {c : Char} {cs : List Char}
    (h : isWs c = false) : (c :: cs).dropWhile isWs = c :: cs := by
  simp [List.dropWhile_cons, h]

lemma trimList_idem (l : List Char) : trimList (trimList l) = trimList l := by
  unfold trimList
  set A := l.dropWhile isWs with hA
  set B := A.reverse.dropWhile isWs with hB
  have hTpre : B.reverse <+: A := by
    have hsuf : B <:+ A.reverse := by rw [hB]; exact List.dropWhile_suffix isWs
    have := List.reverse_prefix.mpr hsuf
    simpa using this
  have hTdrop : B.reverse.dropWhile isWs = B.reverse := by
    cases hT : B.reverse with
    | nil => simp
    | cons c cs =>
      obtain ⟨u, hu⟩ := hTpre
      rw [hT] at hu
      have hAc : A = c :: (cs ++ u) := by
        rw [← hu]; simp
      have hc : isWs c = false := by
        apply head_isWs_false_of_dropWhile_eq_cons (l := l)
        rw [← hA]; exact hAc
      exact dropWhile_eq_self_of_head_false hc
  rw [hTdrop]
  have : B.reverse.reverse.dropWhile isWs = B := by
    simp only [List.reverse_reverse]
    rw [hB]
    exact List.dropWhile_idempotent isWs A.reverse
  rw [this]

lemma jsTrim_idem (s : String) : jsTrim (jsTrim s) = jsTrim s := by
  unfold jsTrim
  rw [show (String.mk (trimList s.data)).data = trimList s.data from rfl,
    trimList_idem]

lemma jsTrim_empty : jsTrim "" = "" := rfl

lemma freshId_ne_empty (n : Nat) : freshId n ≠ "" := by
  unfold freshId
  intro h
  have : ('q' :: (Nat.repr n).data) = ([] : List Char) := congrArg String.data h
  simp at this

lemma find?_isSome_of_exists {α : Type} {l : List α} {p : α → Bool}
    (h : ∃ x ∈ l, p x) : (l.find? p).isSome := List.find?_isSome.mpr h

lemma findIdx?_go_isSome {α : Type} {p : α → Bool} :
    ∀ (l : List α) (i : Nat), (∃ x ∈ l, p x) → (List.findIdx? p l i).isSome := by
  intro l
  induction l with
  | nil => intro i h; simp at h
  | cons a as ih =>
    intro i h
    rw [List.findIdx?_cons]
    by_cases hp : p a
    · simp [hp]
    · simp only [hp]
      simp only [Bool.false_eq_true, if_false]
      rcases h with ⟨x, hx, hpx⟩
      rcases List.mem_cons.mp hx with rfl | hx'
      · exact absurd hpx hp
      · exact ih (i + 1) ⟨x, hx', hpx⟩

lemma findIdx?_isSome_of_exists {α : Type} {p : α → Bool} {l : List α}
    (h : ∃ x ∈ l, p x) : (l.findIdx? p).isSome :=
  findIdx?_go_isSome l 0 h

lemma findIdx?_go_spec {α : Type} {p : α → Bool} :
    ∀ (l : List α) (i n : Nat), List.findIdx? p l i = some n →
      i ≤ n ∧ ∃ x, l[n - i]? = some x ∧ p x := by
  intro l
  induction l with
  | nil => intro i n h; simp [List.findIdx?] at h
  | cons a as ih =>
    intro i n h
    rw [List.findIdx?_cons] at h
    by_cases hp : p a
    · simp only [hp, if_true] at h
      cases Option.some.inj h
      exact ⟨Nat.le_refl _, a, by simp, hp⟩
    · simp only [hp] at h
      simp only [Bool.false_eq_true, if_false] at h
      obtain ⟨hle, x, hx, hpx⟩ := ih (i + 1) n h
      refine ⟨Nat.le_of_succ_le hle, x, ?_, hpx⟩
      have hni : n - i = (n - (i + 1)) + 1 := by omega
      rw [hni]
      simpa using hx

lemma findIdx?_spec {α : Type} {p : α → Bool} {l : List α} {n : Nat}
    (h : l.findIdx? p = some n) : ∃ x, l[n]? = some x ∧ p x := by
  have := (findIdx?_go_spec l 0 n h).2
  simpa using this

lemma confirmText_elementId (el : Elem) (q : QueryData) (e : String) :
    confirmText el { q with elementId := e } = confirmText el q := by
  unfold confirmText
  cases el.extract <;> rfl

lemma confirmText_true_iff (el : Elem) (q : QueryData) :
    confirmText el q = true ↔
      ∃ t, el.extract = some t ∧ t ≠ "" ∧ jsTrim t = jsTrim q.text := by
  unfold confirmText
  cases h : el.extract with
  | none => simp
  | some t =>
    constructor
    · intro hc
      rcases Bool.and_eq_true_iff.mp hc with ⟨h1, h2⟩
      exact ⟨t, rfl, by simpa using h1, by simpa using h2⟩
    · rintro ⟨t', ht', h1, h2⟩
      cases Option.some.inj ht'
      exact Bool.and_eq_true_iff.mpr ⟨by simpa using h1, by simpa using h2⟩

/-! ## C4: generateSummary -/

/-- C4 counterexample: on whitespace-only input `generateSummary` returns
the empty string, not the "No content" sentinel the claim requires (the
JS split quirk: `"".split(/\s+/)` is `[""]`, which joins back to `""`). -/
theorem C4_counterexample :
    generateSummary " " = "" ∧ generateSummary " " ≠ "No content" := by
  constructor
  · decide
  · decide

/-- The whitespace-separated words of `text` after trimming, with no
JS split quirk: blank input has no words. -/
def wordsOf (text : String) : List String :=
  ((splitWsAux (trimList text.data) []).filter
    (fun w => w ≠ [])).map (fun w => String.mk w)

/-- C4 (amended): `generateSummary` returns the first 10 whitespace-
separated words suffixed with "..." when there are more than 10 words,
all words joined by single spaces when there are 10 or fewer, and the
"No content" sentinel exactly for the empty string; whitespace-only
(blank but non-empty) input yields the empty string, not the sentinel. -/
theorem C4_amended (text : String) :
    generateSummary text =
      (if text = "" then "No content"
       else if (wordsOf text).length ≤ MAX_SUMMARY_WORDS then joinWords (wordsOf text)
       else joinWords ((wordsOf text).take MAX_SUMMARY_WORDS) ++ "...") := by
  by_cases h0 : text = ""
  · subst h0; decide
  · unfold generateSummary
    rw [if_neg h0, if_neg h0]
    by_cases hb : jsTrim text = ""
    · have hdata : trimList text.data = [] := by
        have := congrArg String.data hb
        simpa [jsTrim] using this
      rw [hb]
      unfold wordsOf
      rw [hdata]
      decide
    · have hsplit : splitWsTrimmed (jsTrim text) = wordsOf text := by
        unfold splitWsTrimmed wordsOf
        rw [if_neg hb]
        rfl
      show (if MAX_SUMMARY_WORDS < (splitWsTrimmed (jsTrim text)).length then
              joinWords ((splitWsTrimmed (jsTrim text)).take MAX_SUMMARY_WORDS) ++ "..."
            else joinWords (splitWsTrimmed (jsTrim text))) = _
      rw [hsplit]
      by_cases hlen : MAX_SUMMARY_WORDS < (wordsOf text).length
      · rw [if_pos hlen, if_neg (Nat.not_le.mpr hlen)]
      · rw [if_neg hlen, if_pos (Nat.not_lt.mp hlen)]

/-! ## C2: dedup on ingestion -/

/-- C2: a candidate whose id or text matches an existing record is dropped
(`addQueryToSession` returns `false` and leaves the store unchanged), a
fresh candidate is appended unchanged, and ingestion preserves pairwise
distinctness of stored texts — so two candidates with identical trimmed
text can produce only one record. -/
theorem C2_dedup (store : List QueryData) (c : QueryData) :
    ((∃ q ∈ store, q.qid = c.qid ∨ q.text = c.text) →
        addQueryToSession store c = (false, store)) ∧
    ((∀ q ∈ store, q.qid ≠ c.qid ∧ q.text ≠ c.text) →
        addQueryToSession store c = (true, store ++ [c])) ∧
    ((store.map QueryData.text).Pairwise (· ≠ ·) →
        (((addQueryToSession store c).2).map QueryData.text).Pairwise (· ≠ ·)) := by
  refine ⟨?_, ?_, ?_⟩
  · intro h
    unfold addQueryToSession
    have : store.any (fun q => q.qid = c.qid || q.text = c.text) = true := by
      rcases h with ⟨q, hq, hor⟩
      refine List.any_eq_true.mpr ⟨q, hq, ?_⟩
      rcases hor with h1 | h1 <;> simp [h1]
    simp [this]
  · intro h
    unfold addQueryToSession
    have : store.any (fun q => q.qid = c.qid || q.text = c.text) = false := by
      rw [List.any_eq_false]
      intro q hq
      rcases h q hq with ⟨h1, h2⟩
      simp [h1, h2]
    simp [this]
  · intro hpw
    unfold addQueryToSession
    by_cases hany : store.any (fun q => q.qid = c.qid || q.text = c.text) = true
    · simp [hany]; exact hpw
    · rw [Bool.not_eq_true] at hany
      simp only [hany]
      simp only [Bool.false_eq_true, if_false, List.map_append, List.map_cons,
        List.map_nil]
      rw [List.pairwise_append]
      refine ⟨hpw, by simp, ?_⟩
      intro t ht t' ht'
      simp only [List.mem_singleton] at ht'
      subst ht'
      rcases List.mem_map.mp ht with ⟨q, hq, rfl⟩
      have := List.any_eq_false.mp hany q hq
      simp only [Bool.or_eq_true, not_or, decide_eq_true_eq] at this
      exact this.2

/-- C2 witness: a concrete duplicate-text candidate is dropped. -/
theorem C2_dedup_witness :
    addQueryToSession [⟨"a", "hello", "a", 0⟩] ⟨"b", "hello", "b", 1⟩ =
      (false, [⟨"a", "hello", "a", 0⟩]) :=
  (C2_dedup [⟨"a", "hello", "a", 0⟩] ⟨"b", "hello", "b", 1⟩).1
    ⟨⟨"a", "hello", "a", 0⟩, by decide, Or.inr rfl⟩

/-! ## C5: search filtering -/

/-- What one filter pass does to an item: reset the highlight (via
`resetNavigationIndex`) and set `display` from the match. -/
def filteredItem (t : String) (it : NavItem) : NavItem :=
  { it with
    highlighted := false
    display :=
      if t = "" then "block"
      else if jsIncludes (jsToLower it.summary) t ||
          jsIncludes (jsToLower it.fullText) t then "block" else "none" }

lemma filterNavItems_spec (t : String) (ns : NavState) :
    (filterNavItems t ns).items = ns.items.map (filteredItem t) ∧
    (filterNavItems t ns).currentNavigationIndex = -1 ∧
    (filterNavItems t ns).keyboardNavigationActive = false ∧
    (filterNavItems t ns).searchValue = ns.searchValue := by
  unfold filterNavItems resetNavigationIndex clearNavigationHighlight
  refine ⟨?_, rfl, rfl, rfl⟩
  simp only [List.map_map]
  apply List.map_congr_left
  intro it _
  unfold filteredItem
  by_cases h0 : t = ""
  · simp [h0, Function.comp]
  · by_cases hm : (jsIncludes (jsToLower it.summary) t ||
        jsIncludes (jsToLower it.fullText) t) = true
    · simp [h0, hm, Function.comp]
    · simp only [Bool.not_eq_true] at hm
      simp [h0, hm, Function.comp]

/-- C5: typing a term into the search box filters by a case-insensitive
substring match of the (lowercased, trimmed) term against each item's
summary and full text; non-matching items get `display: none`, matching
ones stay `block`, the item list keeps its length and per-position
content; clearing the search empties the field and restores every item to
`block` in place; and every filter application resets the keyboard cursor
(`currentNavigationIndex = -1`, navigation inactive). -/
theorem C5_search (ns : NavState) (term : String) :
    ((handleSearch { ns with searchValue := term }).items.length = ns.items.length) ∧
    (∀ (k : Nat) (it : NavItem), ns.items[k]? = some it →
      ∃ it', (handleSearch { ns with searchValue := term }).items[k]? = some it' ∧
        it'.summary = it.summary ∧ it'.fullText = it.fullText ∧
        it'.display =
          (if jsToLower (jsTrim term) = "" then "block"
           else if jsIncludes (jsToLower it.summary) (jsToLower (jsTrim term)) ||
               jsIncludes (jsToLower it.fullText) (jsToLower (jsTrim term)) then "block"
           else "none")) ∧
    ((clearSearch ns).searchValue = "" ∧
      ∀ (k : Nat) (it : NavItem), ns.items[k]? = some it →
        ∃ it', (clearSearch ns).items[k]? = some it' ∧
          it'.summary = it.summary ∧ it'.fullText = it.fullText ∧
          it'.display = "block") ∧
    (handleSearch { ns with searchValue := term }).currentNavigationIndex = -1 ∧
    (handleSearch { ns with searchValue := term }).keyboardNavigationActive = false ∧
    (clearSearch ns).currentNavigationIndex = -1 := by
  have hh : handleSearch { ns with searchValue := term } =
      filterNavItems (jsToLower (jsTrim term)) { ns with searchValue := term } := rfl
  have hc : clearSearch ns = filterNavItems "" { ns with searchValue := "" } := rfl
  obtain ⟨hi1, hn1, hk1, _⟩ :=
    filterNavItems_spec (jsToLower (jsTrim term)) { ns with searchValue := term }
  obtain ⟨hi2, hn2, _, hs2⟩ := filterNavItems_spec "" { ns with searchValue := "" }
  refine ⟨?_, ?_, ⟨?_, ?_⟩, ?_, ?_, ?_⟩
  · rw [hh, hi1]; simp
  · intro k it hk
    refine ⟨filteredItem (jsToLower (jsTrim term)) it, ?_, rfl, rfl, rfl⟩
    rw [hh, hi1]
    show (List.map (filteredItem (jsToLower (jsTrim term))) ns.items)[k]? = _
    rw [List.getElem?_map, hk]
    rfl
  · rw [hc, hs2]
  · intro k it hk
    refine ⟨filteredItem "" it, ?_, rfl, rfl, rfl⟩
    rw [hc, hi2]
    show (List.map (filteredItem "") ns.items)[k]? = _
    rw [List.getElem?_map, hk]
    rfl
  · rw [hh]; exact hn1
  · rw [hh]; exact hk1
  · rw [hc]; exact hn2

/-- C5 witness: a concrete two-item list filtered by a term matching only
the second item hides the first and keeps the second visible. -/
theorem C5_search_witness :
    ∃ it', (handleSearch
        { collapsed := false, bodyCollapsed := false
          items :=
            [{ summary := "Hello world", fullText := "Hello world", display := "block"
               offsetParentNull := false, highlighted := false, clicked := false },
             { summary := "Explain recursion", fullText := "Explain recursion please"
               display := "block", offsetParentNull := false, highlighted := false
               clicked := false }]
          searchValue := "RECUR", currentNavigationIndex := 0
          keyboardNavigationActive := true }).items[0]? = some it' ∧
      it'.summary = "Hello world" ∧ it'.fullText = "Hello world" ∧
      it'.display = "none" := by
  have h := (C5_search
    { collapsed := false, bodyCollapsed := false
      items :=
        [{ summary := "Hello world", fullText := "Hello world", display := "block"
           offsetParentNull := false, highlighted := false, clicked := false },
         { summary := "Explain recursion", fullText := "Explain recursion please"
           display := "block", offsetParentNull := false, highlighted := false
           clicked := false }]
      searchValue := "", currentNavigationIndex := 0
      keyboardNavigationActive := true } "RECUR").2.1 0
    { summary := "Hello world", fullText := "Hello world", display := "block"
      offsetParentNull := false, highlighted := false, clicked := false } (by decide)
  obtain ⟨it', h1, h2, h3, h4⟩ := h
  exact ⟨it', h1, h2, h3, by rw [h4]; decide⟩

/-! ## C6, C9, C10: keyboard traversal and the initial sidebar state -/

lemma visibleIdx_nil : visibleIdx [] = [] := rfl

lemma items_ne_nil_of_visible {items : List NavItem}
    (h : 0 < (visibleIdx items).length) : ¬ items.length = 0 := by
  intro h0
  rw [List.length_eq_zero.mp h0] at h
  simp [visibleIdx_nil] at h

lemma updateNavigationHighlight_fields (ns : NavState) :
    (updateNavigationHighlight ns).currentNavigationIndex = ns.currentNavigationIndex ∧
    (updateNavigationHighlight ns).keyboardNavigationActive = ns.keyboardNavigationActive := by
  exact ⟨rfl, rfl⟩

lemma updateNavigationHighlight_spec (ns : NavState)
    (h0 : 0 ≤ ns.currentNavigationIndex)
    (h1 : ns.currentNavigationIndex < ((visibleIdx ns.items).length : Int)) :
    highlightOnlyAt (updateNavigationHighlight ns).items
      ((visibleIdx ns.items)[ns.currentNavigationIndex.toNat]?) := by
  intro j it hj
  unfold updateNavigationHighlight at hj
  simp only at hj
  rw [if_pos ⟨h0, h1⟩] at hj
  rw [List.getElem?_map, List.getElem?_enum] at hj
  cases hcase : ns.items[j]? with
  | none => rw [hcase] at hj; simp at hj
  | some it0 =>
    rw [hcase] at hj
    simp only [Option.map_some', Option.some.injEq] at hj
    subst hj
    simp only [decide_eq_true_eq]

lemma clearNavigationHighlight_fields (ns : NavState) :
    (clearNavigationHighlight ns).currentNavigationIndex = -1 ∧
    (clearNavigationHighlight ns).keyboardNavigationActive = false ∧
    ∀ it ∈ (clearNavigationHighlight ns).items, it.highlighted = false := by
  refine ⟨rfl, rfl, ?_⟩
  intro it hit
  unfold clearNavigationHighlight at hit
  simp only at hit
  rcases List.mem_map.mp hit with ⟨a, _, rfl⟩
  rfl

/-- C6: keyboard traversal is gated on an expanded sidebar and a non-input
focus: with the sidebar collapsed nothing changes; with focus in an
input/textarea/contenteditable control nothing changes, except Escape in
the search field, which clears the filter (all items shown, field
emptied) and the highlight; otherwise ArrowDown/ArrowUp move the cursor
within the bounds of the visible subset and highlight exactly the visible
item at the cursor, Enter clicks the highlighted visible item, and Escape
clears the highlight. -/
theorem C6_keyboard (key : Key) (focus : ActiveElem) (ns : NavState) :
    (ns.collapsed = true → handleArrowNavigation key focus ns = ns) ∧
    (isInputLike focus = true → (key = Key.escape → focus ≠ ActiveElem.searchField) →
      handleArrowNavigation key focus ns = ns) ∧
    (ns.collapsed = false → ¬ ns.items.length = 0 →
      (handleArrowNavigation Key.escape ActiveElem.searchField ns).searchValue = "" ∧
      (∀ it ∈ (handleArrowNavigation Key.escape ActiveElem.searchField ns).items,
        it.display = "block" ∧ it.highlighted = false) ∧
      (handleArrowNavigation Key.escape ActiveElem.searchField ns).currentNavigationIndex
        = -1 ∧
      (handleArrowNavigation Key.escape ActiveElem.searchField ns).keyboardNavigationActive
        = false) ∧
    (ns.collapsed = false → isInputLike focus = false →
      (key = Key.arrowDown ∨ key = Key.arrowUp) →
      0 < (visibleIdx ns.items).length →
      -1 ≤ ns.currentNavigationIndex →
      ns.currentNavigationIndex < ((visibleIdx ns.items).length : Int) →
      0 ≤ (handleArrowNavigation key focus ns).currentNavigationIndex ∧
      (handleArrowNavigation key focus ns).currentNavigationIndex
        < ((visibleIdx ns.items).length : Int) ∧
      (handleArrowNavigation key focus ns).keyboardNavigationActive = true ∧
      highlightOnlyAt (handleArrowNavigation key focus ns).items
        ((visibleIdx ns.items)[(handleArrowNavigation key focus ns).currentNavigationIndex.toNat]?)) ∧
    (ns.collapsed = false → isInputLike focus = false →
      0 < (visibleIdx ns.items).length →
      ns.keyboardNavigationActive = true → 0 ≤ ns.currentNavigationIndex →
      ∀ i : Nat, (visibleIdx ns.items)[ns.currentNavigationIndex.toNat]? = some i →
      ∀ it : NavItem, ns.items[i]? = some it →
        ∃ it', (handleArrowNavigation Key.enter focus ns).items[i]? = some it' ∧
          it'.clicked = true) ∧
    (ns.collapsed = false → isInputLike focus = false →
      0 < (visibleIdx ns.items).length →
      (handleArrowNavigation Key.escape focus ns).currentNavigationIndex = -1 ∧
      (handleArrowNavigation Key.escape focus ns).keyboardNavigationActive = false ∧
      ∀ it ∈ (handleArrowNavigation Key.escape focus ns).items,
        it.highlighted = false) := by
  refine ⟨?_, ?_, ?_, ?_, ?_, ?_⟩
  · intro hc
    unfold handleArrowNavigation
    simp [hc]
  · intro hf hkf
    unfold handleArrowNavigation
    split
    · rfl
    · split
      · rfl
      · have hni : ¬(key = Key.escape ∧ focus = ActiveElem.searchField) := by
          rintro ⟨hke, hfs⟩
          exact hkf hke hfs
        exact if_neg hni
  · intro hc hlen
    have hgate : (ns.collapsed || decide (ns.items.length = 0)) = false := by
      simp [hc, hlen]
    have hres : handleArrowNavigation Key.escape ActiveElem.searchField ns =
        clearNavigationHighlight (clearSearch ns) := by
      unfold handleArrowNavigation
      rw [hgate]
      simp [isInputLike]
    rw [hres]
    obtain ⟨hi, hn, hk, hs⟩ := filterNavItems_spec "" { ns with searchValue := "" }
    have hcs : clearSearch ns = filterNavItems "" { ns with searchValue := "" } := rfl
    refine ⟨?_, ?_, rfl, rfl⟩
    · show (clearSearch ns).searchValue = ""
      rw [hcs, hs]
    · intro it hit
      unfold clearNavigationHighlight at hit
      simp only at hit
      rcases List.mem_map.mp hit with ⟨a, ha, rfl⟩
      rw [hcs, hi] at ha
      rcases List.mem_map.mp ha with ⟨b, _, rfl⟩
      exact ⟨rfl, rfl⟩
  · intro hc hf hkey hv hlo hhi
    have hlen := items_ne_nil_of_visible hv
    have hgate : (ns.collapsed || decide (ns.items.length = 0)) = false := by
      simp [hc, hlen]
    have hvz : ¬ (visibleIdx ns.items).length = 0 := by omega
    have hnpos : (0 : Int) < ((visibleIdx ns.items).length : Int) := by
      exact_mod_cast hv
    rcases hkey with rfl | rfl
    · have hres : handleArrowNavigation Key.arrowDown focus ns =
          updateNavigationHighlight
            { ns with
              keyboardNavigationActive := true
              currentNavigationIndex :=
                (ns.currentNavigationIndex + 1) % ((visibleIdx ns.items).length : Int) } := by
        unfold handleArrowNavigation
        rw [hgate]
        simp [hf, hvz]
      set m := (ns.currentNavigationIndex + 1) % ((visibleIdx ns.items).length : Int) with hm
      have h0 : 0 ≤ m := Int.emod_nonneg _ (by omega)
      have h1 : m < ((visibleIdx ns.items).length : Int) := Int.emod_lt_of_pos _ hnpos
      rw [hres]
      refine ⟨h0, h1, rfl, ?_⟩
      exact updateNavigationHighlight_spec _ h0 h1
    · have hres : handleArrowNavigation Key.arrowUp focus ns =
          updateNavigationHighlight
            { ns with
              keyboardNavigationActive := true
              currentNavigationIndex :=
                if ns.currentNavigationIndex ≤ 0 then ((visibleIdx ns.items).length : Int) - 1
                else ns.currentNavigationIndex - 1 } := by
        unfold handleArrowNavigation
        rw [hgate]
        simp [hf, hvz]
      set m := (if ns.currentNavigationIndex ≤ 0 then ((visibleIdx ns.items).length : Int) - 1
                else ns.currentNavigationIndex - 1) with hm
      have h0 : 0 ≤ m := by
        rw [hm]; split <;> omega
      have h1 : m < ((visibleIdx ns.items).length : Int) := by
        rw [hm]; split <;> omega
      rw [hres]
      refine ⟨h0, h1, rfl, ?_⟩
      exact updateNavigationHighlight_spec _ h0 h1
  · intro hc hf hv hact hidx i hvi it hit
    have hlen := items_ne_nil_of_visible hv
    have hgate : (ns.collapsed || decide (ns.items.length = 0)) = false := by
      simp [hc, hlen]
    have hvz : ¬ (visibleIdx ns.items).length = 0 := by omega
    have hres : handleArrowNavigation Key.enter focus ns =
        clickVisibleItem ns ns.currentNavigationIndex.toNat := by
      unfold handleArrowNavigation
      rw [hgate]
      simp [hf, hvz, hact, hidx]
    rw [hres]
    unfold clickVisibleItem
    rw [hvi]
    refine ⟨{ it with clicked := true }, ?_, rfl⟩
    simp only
    rw [List.getElem?_map, List.getElem?_enum, hit]
    simp
  · intro hc hf hv
    have hlen := items_ne_nil_of_visible hv
    have hgate : (ns.collapsed || decide (ns.items.length = 0)) = false := by
      simp [hc, hlen]
    have hvz : ¬ (visibleIdx ns.items).length = 0 := by omega
    have hres : handleArrowNavigation Key.escape focus ns =
        clearNavigationHighlight ns := by
      unfold handleArrowNavigation
      rw [hgate]
      simp [hf, hvz]
    rw [hres]
    exact clearNavigationHighlight_fields ns

/-- A concrete sidebar state: first item filtered out, second visible. -/
def navStateA : NavState :=
  { collapsed := false, bodyCollapsed := false
    items :=
      [{ summary := "a", fullText := "a", display := "none"
         offsetParentNull := false, highlighted := false, clicked := false },
       { summary := "b", fullText := "b", display := "block"
         offsetParentNull := false, highlighted := false, clicked := false }]
    searchValue := "", currentNavigationIndex := -1
    keyboardNavigationActive := false }

/-- C6 witness: with focus in a non-search input, ArrowDown is suppressed;
with plain focus it activates keyboard navigation on the concrete state. -/
theorem C6_keyboard_witness :
    handleArrowNavigation Key.arrowDown ActiveElem.otherInputLike navStateA = navStateA ∧
    (handleArrowNavigation Key.arrowDown ActiveElem.plain navStateA).keyboardNavigationActive
      = true := by
  constructor
  · exact (C6_keyboard Key.arrowDown ActiveElem.otherInputLike navStateA).2.1 rfl
      (fun h => nomatch h)
  · exact ((C6_keyboard Key.arrowDown ActiveElem.plain navStateA).2.2.2.1 rfl rfl
      (Or.inl rfl) (by decide) (by decide) (by decide)).2.2.1

/-- C9: right after `createNavBar` runs on a supported page with no
pre-existing bar, the nav bar carries the `collapsed` class and the body
carries `ai-nav-collapsed` (the sidebar starts collapsed), and keyboard
traversal is inert: every key in every focus context leaves the state
unchanged. -/
theorem C9_initial_collapsed (p : Page) (h1 : p.navBarExists = false)
    (h2 : p.providerAvailable = true) :
    (createNavBar p).nav.collapsed = true ∧
    (createNavBar p).nav.bodyCollapsed = true ∧
    ∀ (key : Key) (focus : ActiveElem),
      handleArrowNavigation key focus (createNavBar p).nav = (createNavBar p).nav := by
  have hres : createNavBar p =
      { navBarExists := true, providerAvailable := p.providerAvailable
        nav := { collapsed := true, bodyCollapsed := true, items := []
                 searchValue := "", currentNavigationIndex := -1
                 keyboardNavigationActive := false } } := by
    unfold createNavBar
    rw [if_neg (by simp [h1]), if_neg (by simp [h2])]
  rw [hres]
  refine ⟨rfl, rfl, ?_⟩
  intro key focus
  unfold handleArrowNavigation
  simp

/-- C9 witness: the initial state on a concrete fresh page. -/
theorem C9_initial_collapsed_witness :
    (createNavBar { navBarExists := false, providerAvailable := true
                    nav := navStateA }).nav.collapsed = true :=
  (C9_initial_collapsed
    { navBarExists := false, providerAvailable := true, nav := navStateA }
    rfl rfl).1

/-- Unfolding `handleArrowNavigation` on ArrowDown in the unsuppressed
case. -/
lemma arrowDown_eq (focus : ActiveElem) (ns : NavState)
    (hc : ns.collapsed = false) (hf : isInputLike focus = false)
    (hv : 0 < (visibleIdx ns.items).length) :
    handleArrowNavigation Key.arrowDown focus ns =
      updateNavigationHighlight
        { ns with
          keyboardNavigationActive := true
          currentNavigationIndex :=
            (ns.currentNavigationIndex + 1) % ((visibleIdx ns.items).length : Int) } := by
  have hlen := items_ne_nil_of_visible hv
  have hgate : (ns.collapsed || decide (ns.items.length = 0)) = false := by
    simp [hc, hlen]
  have hvz : ¬ (visibleIdx ns.items).length = 0 := by omega
  unfold handleArrowNavigation
  rw [hgate]
  simp [hf, hvz]

/-- Unfolding `handleArrowNavigation` on ArrowUp in the unsuppressed
case. -/
lemma arrowUp_eq (focus : ActiveElem) (ns : NavState)
    (hc : ns.collapsed = false) (hf : isInputLike focus = false)
    (hv : 0 < (visibleIdx ns.items).length) :
    handleArrowNavigation Key.arrowUp focus ns =
      updateNavigationHighlight
        { ns with
          keyboardNavigationActive := true
          currentNavigationIndex :=
            if ns.currentNavigationIndex ≤ 0 then ((visibleIdx ns.items).length : Int) - 1
            else ns.currentNavigationIndex - 1 } := by
  have hlen := items_ne_nil_of_visible hv
  have hgate : (ns.collapsed || decide (ns.items.length = 0)) = false := by
    simp [hc, hlen]
  have hvz : ¬ (visibleIdx ns.items).length = 0 := by omega
  unfold handleArrowNavigation
  rw [hgate]
  simp [hf, hvz]

/-- C10: with no current highlight (cursor -1), ArrowDown highlights the
first visible entry and ArrowUp the last; from the last visible entry
ArrowDown wraps to the first, and from the first ArrowUp wraps to the
last. -/
theorem C10_wraparound (focus : ActiveElem) (ns : NavState)
    (hc : ns.collapsed = false) (hf : isInputLike focus = false)
    (hv : 0 < (visibleIdx ns.items).length) :
    (ns.currentNavigationIndex = -1 →
      (handleArrowNavigation Key.arrowDown focus ns).currentNavigationIndex = 0 ∧
      highlightOnlyAt (handleArrowNavigation Key.arrowDown focus ns).items
        (visibleIdx ns.items)[0]?) ∧
    (ns.currentNavigationIndex = -1 →
      (handleArrowNavigation Key.arrowUp focus ns).currentNavigationIndex =
        ((visibleIdx ns.items).length : Int) - 1 ∧
      highlightOnlyAt (handleArrowNavigation Key.arrowUp focus ns).items
        (visibleIdx ns.items)[(visibleIdx ns.items).length - 1]?) ∧
    (ns.currentNavigationIndex = ((visibleIdx ns.items).length : Int) - 1 →
      (handleArrowNavigation Key.arrowDown focus ns).currentNavigationIndex = 0 ∧
      highlightOnlyAt (handleArrowNavigation Key.arrowDown focus ns).items
        (visibleIdx ns.items)[0]?) ∧
    (ns.currentNavigationIndex = 0 →
      (handleArrowNavigation Key.arrowUp focus ns).currentNavigationIndex =
        ((visibleIdx ns.items).length : Int) - 1 ∧
      highlightOnlyAt (handleArrowNavigation Key.arrowUp focus ns).items
        (visibleIdx ns.items)[(visibleIdx ns.items).length - 1]?) := by
  have hD := arrowDown_eq focus ns hc hf hv
  have hU := arrowUp_eq focus ns hc hf hv
  refine ⟨?_, ?_, ?_, ?_⟩
  · intro hi
    rw [hD, hi]
    have hz : ((-1 : Int) + 1) % ((visibleIdx ns.items).length : Int) = 0 := by
      norm_num
    rw [hz]
    refine ⟨rfl, ?_⟩
    have := updateNavigationHighlight_spec
      { ns with keyboardNavigationActive := true, currentNavigationIndex := 0 }
      (by simp) (by simpa using hv)
    simpa using this
  · intro hi
    rw [hU, hi]
    rw [if_pos (by norm_num)]
    refine ⟨rfl, ?_⟩
    have := updateNavigationHighlight_spec
      { ns with keyboardNavigationActive := true
                currentNavigationIndex := ((visibleIdx ns.items).length : Int) - 1 }
      (by simp; omega) (by simp)
    have htn : (((visibleIdx ns.items).length : Int) - 1).toNat =
        (visibleIdx ns.items).length - 1 := by omega
    simpa [htn] using this
  · intro hi
    rw [hD, hi]
    have hz : (((visibleIdx ns.items).length : Int) - 1 + 1) %
        ((visibleIdx ns.items).length : Int) = 0 := by
      have : ((visibleIdx ns.items).length : Int) - 1 + 1 =
          ((visibleIdx ns.items).length : Int) := by ring
      rw [this, Int.emod_self]
    rw [hz]
    refine ⟨rfl, ?_⟩
    have := updateNavigationHighlight_spec
      { ns with keyboardNavigationActive := true, currentNavigationIndex := 0 }
      (by simp) (by simpa using hv)
    simpa using this
  · intro hi
    rw [hU, hi]
    rw [if_pos (by norm_num)]
    refine ⟨rfl, ?_⟩
    have := updateNavigationHighlight_spec
      { ns with keyboardNavigationActive := true
                currentNavigationIndex := ((visibleIdx ns.items).length : Int) - 1 }
      (by simp; omega) (by simp)
    have htn : (((visibleIdx ns.items).length : Int) - 1).toNat =
        (visibleIdx ns.items).length - 1 := by omega
    simpa [htn] using this

/-- C10 witness: on the concrete state (one visible entry, no highlight),
ArrowDown selects position 0 of the visible subset. -/
theorem C10_wraparound_witness :
    (handleArrowNavigation Key.arrowDown ActiveElem.plain navStateA).currentNavigationIndex
      = 0 :=
  ((C10_wraparound ActiveElem.plain navStateA rfl rfl (by decide)).1 rfl).1

/-! ## C1: record with no live match -/

lemma getElementById_mem {dom : Dom} {i : String} {el : Elem}
    (h : getElementById dom i = some el) : el ∈ dom.elems := by
  unfold getElementById at h
  cases hf : findElemIdxById dom i with
  | none => rw [hf] at h; cases h
  | some n =>
    rw [hf] at h
    exact List.getElem?_mem h

lemma validateOne_snd_text (dom : Dom) (q : QueryData) :
    (validateOne dom q).2.text = q.text := by
  unfold validateOne
  dsimp only
  repeat' split
  all_goals rfl

lemma validateOne_snd_qid (dom : Dom) (q : QueryData) :
    (validateOne dom q).2.qid = q.qid := by
  unfold validateOne
  dsimp only
  repeat' split
  all_goals rfl

lemma validateOne_fst_true_exists {dom : Dom} {q : QueryData}
    (h : (validateOne dom q).1 = true) :
    ∃ el ∈ dom.elems, confirmText el q = true := by
  unfold validateOne at h
  dsimp only at h
  by_cases hid : (if q.elementId ≠ "" then
      match getElementById dom q.elementId with
      | some el => confirmText el q
      | none => false
    else false) = true
  · split at hid
    · cases hg : getElementById dom q.elementId with
      | none => rw [hg] at hid; cases hid
      | some el =>
        rw [hg] at hid
        exact ⟨el, getElementById_mem hg, hid⟩
    · cases hid
  · rw [if_neg hid] at h
    cases hs : scanFind dom.elems q with
    | none => rw [hs] at h; cases h
    | some el =>
      unfold scanFind at hs
      have hp := List.find?_some hs
      exact ⟨el, List.mem_of_find?_eq_some hs, by simpa using hp⟩

/-- Every record surviving `validateSessionQueries` descends from a store
record with the same `qid`/`text` whose validation succeeded. -/
lemma mem_validate_source {dom : Dom} {store : List QueryData} {r : QueryData}
    (hr : r ∈ validateSessionQueries dom store) :
    ∃ q ∈ store, (validateOne dom q).1 = true ∧ r.text = q.text ∧ r.qid = q.qid := by
  unfold validateSessionQueries at hr
  dsimp only at hr
  have hval : ∀ r', r' ∈ ((store.map (validateOne dom)).filter
        (fun p => p.1)).map (fun p => p.2) →
      ∃ q ∈ store, (validateOne dom q).1 = true ∧ r'.text = q.text ∧ r'.qid = q.qid := by
    intro r' hr'
    rcases List.mem_map.mp hr' with ⟨pr, hpr, rfl⟩
    rcases List.mem_filter.mp hpr with ⟨hpr1, hpr2⟩
    rcases List.mem_map.mp hpr1 with ⟨q, hq, rfl⟩
    refine ⟨q, hq, by simpa using hpr2, validateOne_snd_text dom q, validateOne_snd_qid dom q⟩
  split at hr
  · exact hval r hr
  · rcases List.mem_map.mp hr with ⟨⟨i, r0⟩, hir, rfl⟩
    have hr0 : r0 ∈ ((store.map (validateOne dom)).filter
        (fun p => p.1)).map (fun p => p.2) :=
      List.getElem?_mem (List.mk_mem_enum_iff_getElem?.mp hir)
    obtain ⟨q, hq, h1, h2, h3⟩ := hval r0 hr0
    exact ⟨q, hq, h1, h2, h3⟩

lemma addNavItemLive_entries_length (dom : Dom) (entries : List NavEntry)
    (s e : String) (n : Nat) :
    (addNavItemLive dom entries s e n).2.length ≤ entries.length + 1 := by
  unfold addNavItemLive
  split
  · simp
  · dsimp only
    split
    · dsimp only
      split
      · simp
      · simp
    · dsimp only
      split
      · simp
      · simp

lemma addNavItemPlaceholder_entries_length (entries : List NavEntry) (s e : String) :
    (addNavItemPlaceholder entries s e).length ≤ entries.length + 1 := by
  unfold addNavItemPlaceholder
  dsimp only
  split
  · simp
  · simp

lemma rebuildStep_entries_length (dom : Dom) (idx : Nat) (q : QueryData)
    (entries : List NavEntry) :
    (rebuildStep dom idx q entries).2.2.length ≤ entries.length + 1 := by
  unfold rebuildStep
  dsimp only
  split
  · exact addNavItemLive_entries_length ..
  · exact addNavItemPlaceholder_entries_length ..

lemma rebuildGo_entries_length :
    ∀ (qs : List QueryData) (dom : Dom) (idx : Nat) (entries : List NavEntry),
      (rebuildGo dom idx qs entries).2.2.length ≤ entries.length + qs.length := by
  intro qs
  induction qs with
  | nil => intro dom idx entries; simp [rebuildGo]
  | cons q qs ih =>
    intro dom idx entries
    have hstep := rebuildStep_entries_length dom idx q entries
    rcases hs : rebuildStep dom idx q entries with ⟨dom1, q1, entries1⟩
    rw [hs] at hstep
    have hrec := ih dom1 (idx + 1) entries1
    rcases hg : rebuildGo dom1 (idx + 1) qs entries1 with ⟨dom2, qs2, entries2⟩
    rw [hg] at hrec
    show (rebuildGo dom idx (q :: qs) entries).2.2.length ≤ _
    rw [rebuildGo, hs]
    simp only [hg]
    simp only [List.length_cons] at hrec hstep ⊢
    omega

/-- C1 counterexample: a record whose bound element is gone and whose text
matches no located element is deleted by `validateSessionQueries` (the
store becomes empty) and the rebuild emits no entry at all — no
placeholder survives, contradicting the claim. -/
theorem C1_counterexample :
    validateSessionQueries ⟨[⟨"e2", some "other", "other"⟩]⟩
        [⟨"q1", "hello", "e1", 0⟩] = [] ∧
    (rebuildNavigationFromSession ⟨[⟨"e2", some "other", "other"⟩]⟩
        [⟨"q1", "hello", "e1", 0⟩]).2.2 = [] := by
  constructor
  · decide
  · decide

/-- C1 (amended): when a record's bound element is gone from the tree and
no located element has a matching trimmed text, a revalidation-and-rebuild
cycle removes the record from the record set (every surviving record has a
different trimmed text, so the record itself is gone) and projects no
entry for it: the rebuild emits at most one Navigation Entry per surviving
record.  The placeholder path only serves records that do revalidate. -/
theorem C1_dropped (dom : Dom) (store : List QueryData) (q : QueryData)
    (_hq : q ∈ store)
    (hnm : ∀ el ∈ dom.elems, confirmText el q = false) :
    (∀ r ∈ validateSessionQueries dom store, jsTrim r.text ≠ jsTrim q.text) ∧
    q ∉ validateSessionQueries dom store ∧
    (rebuildNavigationFromSession dom store).2.2.length ≤
      (validateSessionQueries dom store).length := by
  have hmain : ∀ r ∈ validateSessionQueries dom store, jsTrim r.text ≠ jsTrim q.text := by
    intro r hr heq
    obtain ⟨q', _, hfst, htext, _⟩ := mem_validate_source hr
    obtain ⟨el, hel, hconf⟩ := validateOne_fst_true_exists hfst
    obtain ⟨t, hext, htne, htrim⟩ := (confirmText_true_iff el q').mp hconf
    have : confirmText el q = true := by
      refine (confirmText_true_iff el q).mpr ⟨t, hext, htne, ?_⟩
      rw [htrim, ← htext, heq]
    rw [hnm el hel] at this
    cases this
  refine ⟨hmain, ?_, ?_⟩
  · intro hqmem
    exact hmain q hqmem rfl
  · unfold rebuildNavigationFromSession
    have := rebuildGo_entries_length (validateSessionQueries dom store) dom 0 []
    simpa using this

/-- C1 witness: the concrete dropped record of the counterexample
instantiates the amended theorem. -/
theorem C1_dropped_witness :
    ⟨"q1", "hello", "e1", 0⟩ ∉
      validateSessionQueries ⟨[⟨"e2", some "other", "other"⟩]⟩
        [⟨"q1", "hello", "e1", 0⟩] :=
  (C1_dropped ⟨[⟨"e2", some "other", "other"⟩]⟩ [⟨"q1", "hello", "e1", 0⟩]
    ⟨"q1", "hello", "e1", 0⟩ (by decide) (by decide)).2.1

/-! ## C8: per-element error isolation in the ingestion batch -/

lemma ingestStep_oob {st : AppState} {i : Nat}
    (h : st.dom.elems[i]? = none) : ingestStep st i = st := by
  unfold ingestStep
  rw [h]

lemma ingestStep_throw {st : AppState} {i : Nat} {el : Elem}
    (h : st.dom.elems[i]? = some el) (hex : el.extract = none) :
    ingestStep st i = st := by
  unfold ingestStep
  rw [h]
  dsimp only
  rw [hex]

lemma ingestStep_blank {st : AppState} {i : Nat} {el : Elem} {t : String}
    (h : st.dom.elems[i]? = some el) (hex : el.extract = some t)
    (hg : ¬(t ≠ "" ∧ jsTrim t ≠ "")) : ingestStep st i = st := by
  unfold ingestStep
  rw [h]
  dsimp only
  rw [hex]
  dsimp only
  rw [if_neg hg]

lemma ingestStep_keep_id {st : AppState} {i : Nat} {el : Elem} {t : String}
    (h : st.dom.elems[i]? = some el) (hex : el.extract = some t)
    (hg : t ≠ "" ∧ jsTrim t ≠ "") (heid : ¬ el.eid = "") :
    ingestStep st i =
      { st with store :=
          (addQueryToSession st.store
            ⟨el.eid, jsTrim t, el.eid, st.store.length⟩).2 } := by
  unfold ingestStep
  rw [h]
  dsimp only
  rw [hex]
  dsimp only
  rw [if_pos hg, if_neg heid]

lemma ingestStep_fresh {st : AppState} {i : Nat} {el : Elem} {t : String}
    (h : st.dom.elems[i]? = some el) (hex : el.extract = some t)
    (hg : t ≠ "" ∧ jsTrim t ≠ "") (heid : el.eid = "") :
    ingestStep st i =
      { dom := ⟨st.dom.elems.set i { el with eid := freshId st.nextFresh }⟩
        store :=
          (addQueryToSession st.store
            ⟨freshId st.nextFresh, jsTrim t, freshId st.nextFresh, st.store.length⟩).2
        nextFresh := st.nextFresh + 1 } := by
  unfold ingestStep
  rw [h]
  dsimp only
  rw [hex]
  dsimp only
  rw [if_pos hg, if_pos heid]

/-- The two ingestion runs related by C8: same store and id counter, and
the trees differ exactly by the throwing element sitting at position `k`. -/
def SkipRel (bad : Elem) (k : Nat) (stA stB : AppState) : Prop :=
  stA.store = stB.store ∧ stA.nextFresh = stB.nextFresh ∧
  ∃ xs ys, xs.length = k ∧ stA.dom.elems = xs ++ bad :: ys ∧
    stB.dom.elems = xs ++ ys

lemma ingestStep_skipRel_lt {bad : Elem} {k : Nat} {stA stB : AppState}
    (h : SkipRel bad k stA stB) {i : Nat} (hi : i < k) :
    SkipRel bad k (ingestStep stA i) (ingestStep stB i) := by
  obtain ⟨hstore, hfresh, xs, ys, hk, hA, hB⟩ := h
  have hgetA : stA.dom.elems[i]? = xs[i]? := by
    rw [hA, List.getElem?_append]
    rw [if_pos (by omega)]
  have hgetB : stB.dom.elems[i]? = xs[i]? := by
    rw [hB, List.getElem?_append]
    rw [if_pos (by omega)]
  cases hx : xs[i]? with
  | none =>
    rw [ingestStep_oob (hgetA.trans hx), ingestStep_oob (hgetB.trans hx)]
    exact ⟨hstore, hfresh, xs, ys, hk, hA, hB⟩
  | some el =>
    cases hex : el.extract with
    | none =>
      rw [ingestStep_throw (hgetA.trans hx) hex, ingestStep_throw (hgetB.trans hx) hex]
      exact ⟨hstore, hfresh, xs, ys, hk, hA, hB⟩
    | some t =>
      by_cases hgate : t ≠ "" ∧ jsTrim t ≠ ""
      · by_cases heid : el.eid = ""
        · rw [ingestStep_fresh (hgetA.trans hx) hex hgate heid,
            ingestStep_fresh (hgetB.trans hx) hex hgate heid]
          refine ⟨?_, ?_, xs.set i { el with eid := freshId stB.nextFresh }, ys,
            by simpa using hk, ?_, ?_⟩
          · rw [hstore, hfresh]
          · rw [hfresh]
          · rw [hfresh, hA, List.set_append_left _ _ (by omega)]
          · rw [hB, List.set_append_left _ _ (by omega)]
        · rw [ingestStep_keep_id (hgetA.trans hx) hex hgate heid,
            ingestStep_keep_id (hgetB.trans hx) hex hgate heid]
          refine ⟨?_, hfresh, xs, ys, hk, hA, hB⟩
          rw [hstore]
      · rw [ingestStep_blank (hgetA.trans hx) hex hgate,
          ingestStep_blank (hgetB.trans hx) hex hgate]
        exact ⟨hstore, hfresh, xs, ys, hk, hA, hB⟩

lemma ingestStep_skipRel_at {bad : Elem} {k : Nat} {stA stB : AppState}
    (hbad : bad.extract = none) (h : SkipRel bad k stA stB) :
    ingestStep stA k = stA := by
  obtain ⟨_, _, xs, ys, hk, hA, _⟩ := h
  have hget : stA.dom.elems[k]? = some bad := by
    rw [hA, List.getElem?_append]
    rw [if_neg (by omega), hk]
    simp
  exact ingestStep_throw hget hbad

lemma ingestStep_skipRel_gt {bad : Elem} {k : Nat} {stA stB : AppState}
    (h : SkipRel bad k stA stB) (j : Nat) :
    SkipRel bad k (ingestStep stA (k + 1 + j)) (ingestStep stB (k + j)) := by
  obtain ⟨hstore, hfresh, xs, ys, hk, hA, hB⟩ := h
  have hgetA : stA.dom.elems[k + 1 + j]? = ys[j]? := by
    rw [hA, List.getElem?_append]
    rw [if_neg (by omega)]
    have : k + 1 + j - xs.length = j + 1 := by omega
    rw [this]
    simp
  have hgetB : stB.dom.elems[k + j]? = ys[j]? := by
    rw [hB, List.getElem?_append]
    rw [if_neg (by omega)]
    have : k + j - xs.length = j := by omega
    rw [this]
  cases hx : ys[j]? with
  | none =>
    rw [ingestStep_oob (hgetA.trans hx), ingestStep_oob (hgetB.trans hx)]
    exact ⟨hstore, hfresh, xs, ys, hk, hA, hB⟩
  | some el =>
    cases hex : el.extract with
    | none =>
      rw [ingestStep_throw (hgetA.trans hx) hex, ingestStep_throw (hgetB.trans hx) hex]
      exact ⟨hstore, hfresh, xs, ys, hk, hA, hB⟩
    | some t =>
      by_cases hgate : t ≠ "" ∧ jsTrim t ≠ ""
      · by_cases heid : el.eid = ""
        · rw [ingestStep_fresh (hgetA.trans hx) hex hgate heid,
            ingestStep_fresh (hgetB.trans hx) hex hgate heid]
          refine ⟨?_, ?_, xs, ys.set j { el with eid := freshId stB.nextFresh }, hk, ?_, ?_⟩
          · rw [hstore, hfresh]
          · rw [hfresh]
          · rw [hfresh, hA, List.set_append_right _ _ (by omega)]
            have : k + 1 + j - xs.length = j + 1 := by omega
            rw [this]
            simp
          · rw [hB, List.set_append_right _ _ (by omega)]
            have : k + j - xs.length = j := by omega
            rw [this]
        · rw [ingestStep_keep_id (hgetA.trans hx) hex hgate heid,
            ingestStep_keep_id (hgetB.trans hx) hex hgate heid]
          refine ⟨?_, hfresh, xs, ys, hk, hA, hB⟩
          rw [hstore]
      · rw [ingestStep_blank (hgetA.trans hx) hex hgate,
          ingestStep_blank (hgetB.trans hx) hex hgate]
        exact ⟨hstore, hfresh, xs, ys, hk, hA, hB⟩

lemma foldl_skipRel_prefix {bad : Elem} {k : Nat} :
    ∀ (is : List Nat) {stA stB : AppState}, (∀ i ∈ is, i < k) →
      SkipRel bad k stA stB →
      SkipRel bad k (is.foldl ingestStep stA) (is.foldl ingestStep stB) := by
  intro is
  induction is with
  | nil => intro stA stB _ h; exact h
  | cons i is ih =>
    intro stA stB hltl h
    exact ih (fun j hj => hltl j (List.mem_cons_of_mem i hj))
      (ingestStep_skipRel_lt h (hltl i (List.mem_cons_self i is)))

lemma foldl_skipRel_suffix {bad : Elem} {k : Nat} :
    ∀ (js : List Nat) {stA stB : AppState}, SkipRel bad k stA stB →
      SkipRel bad k (js.foldl (fun st j => ingestStep st (k + 1 + j)) stA)
        (js.foldl (fun st j => ingestStep st (k + j)) stB) := by
  intro js
  induction js with
  | nil => intro stA stB h; exact h
  | cons j js ih =>
    intro stA stB h
    exact ih (ingestStep_skipRel_gt h j)

/-- C8: an element whose text extraction throws is skipped — ingestion
over the batch with the throwing element produces exactly the store and
id counter of ingestion over the batch without it (the remaining elements
are processed identically), and the trees agree except for the inert
throwing element itself.  The exception is absorbed inside the loop
(`ingestStep` is total), so it never escapes `processChatElements`. -/
theorem C8_error_isolated (xs ys : List Elem) (bad : Elem)
    (store : List QueryData) (fresh : Nat) (hbad : bad.extract = none) :
    (ingestAll ⟨⟨xs ++ bad :: ys⟩, store, fresh⟩).store =
      (ingestAll ⟨⟨xs ++ ys⟩, store, fresh⟩).store ∧
    (ingestAll ⟨⟨xs ++ bad :: ys⟩, store, fresh⟩).nextFresh =
      (ingestAll ⟨⟨xs ++ ys⟩, store, fresh⟩).nextFresh ∧
    ∃ xs2 ys2, xs2.length = xs.length ∧
      (ingestAll ⟨⟨xs ++ bad :: ys⟩, store, fresh⟩).dom.elems = xs2 ++ bad :: ys2 ∧
      (ingestAll ⟨⟨xs ++ ys⟩, store, fresh⟩).dom.elems = xs2 ++ ys2 := by
  set stA0 : AppState := ⟨⟨xs ++ bad :: ys⟩, store, fresh⟩ with hA0
  set stB0 : AppState := ⟨⟨xs ++ ys⟩, store, fresh⟩ with hB0
  set k := xs.length with hkdef
  set m := ys.length with hmdef
  have h0 : SkipRel bad k stA0 stB0 := ⟨rfl, rfl, xs, ys, rfl, rfl, rfl⟩
  have hlenA : stA0.dom.elems.length = k + 1 + m := by
    simp [stA0]
    omega
  have hlenB : stB0.dom.elems.length = k + m := by
    simp [stB0]
  have hrangeA : List.range (k + 1 + m) =
      (List.range k ++ [k]) ++ (List.range m).map (fun j => k + 1 + j) := by
    rw [List.range_add (k + 1) m, List.range_succ k]
  have hrangeB : List.range (k + m) =
      List.range k ++ (List.range m).map (fun j => k + j) := by
    rw [List.range_add k m]
  have h1 : SkipRel bad k ((List.range k).foldl ingestStep stA0)
      ((List.range k).foldl ingestStep stB0) :=
    foldl_skipRel_prefix (List.range k) (fun i hi => List.mem_range.mp hi) h0
  have h2 : ([k].foldl ingestStep ((List.range k).foldl ingestStep stA0)) =
      (List.range k).foldl ingestStep stA0 := by
    simp only [List.foldl_cons, List.foldl_nil]
    exact ingestStep_skipRel_at hbad h1
  have h3 : SkipRel bad k
      (((List.range m).map (fun j => k + 1 + j)).foldl ingestStep
        ((List.range k).foldl ingestStep stA0))
      (((List.range m).map (fun j => k + j)).foldl ingestStep
        ((List.range k).foldl ingestStep stB0)) := by
    rw [List.foldl_map, List.foldl_map]
    exact foldl_skipRel_suffix (List.range m) h1
  have hAfold : ingestAll stA0 =
      ((List.range m).map (fun j => k + 1 + j)).foldl ingestStep
        ((List.range k).foldl ingestStep stA0) := by
    unfold ingestAll
    rw [hlenA, hrangeA, List.foldl_append, List.foldl_append, h2]
  have hBfold : ingestAll stB0 =
      ((List.range m).map (fun j => k + j)).foldl ingestStep
        ((List.range k).foldl ingestStep stB0) := by
    unfold ingestAll
    rw [hlenB, hrangeB, List.foldl_append]
  rw [hAfold, hBfold]
  obtain ⟨hs, hf, xs2, ys2, hl, hA, hB⟩ := h3
  exact ⟨hs, hf, xs2, ys2, hl ▸ rfl, hA, hB⟩

/-- C8 witness: a concrete batch with a throwing middle element yields the
same store as the batch without it. -/
theorem C8_error_isolated_witness :
    (ingestAll ⟨⟨[⟨"e1", some "hello", "hello"⟩, ⟨"ebad", none, ""⟩,
        ⟨"e2", some "world", "world"⟩]⟩, [], 0⟩).store =
      (ingestAll ⟨⟨[⟨"e1", some "hello", "hello"⟩,
        ⟨"e2", some "world", "world"⟩]⟩, [], 0⟩).store :=
  (C8_error_isolated [⟨"e1", some "hello", "hello"⟩] [⟨"e2", some "world", "world"⟩]
    ⟨"ebad", none, ""⟩ [] 0 rfl).1

/-! ## C7: same-provider navigation empties and repopulates the store -/

/-- `q` was extracted from the tree `dom0`: some located element's
extraction yields exactly `q`'s (trimmed, non-blank) text. -/
def OriginOf (dom0 : Dom) (q : QueryData) : Prop :=
  ∃ el ∈ dom0.elems, ∃ t, el.extract = some t ∧ jsTrim t ≠ "" ∧ q.text = jsTrim t

lemma set_getElem?_self {α : Type} {l : List α} {i : Nat} {a : α}
    (h : l[i]? = some a) : l.set i a = l := by
  have hi : i < l.length := by
    by_contra hc
    rw [List.getElem?_eq_none (by omega)] at h
    cases h
  apply List.ext_getElem?
  intro n
  by_cases hn : n = i
  · subst hn
    rw [List.getElem?_set_self hi, h]
  · rw [List.getElem?_set_ne (by omega)]

lemma ingestStep_extract_map (st : AppState) (i : Nat) :
    (ingestStep st i).dom.elems.map Elem.extract =
      st.dom.elems.map Elem.extract := by
  cases hx : st.dom.elems[i]? with
  | none => rw [ingestStep_oob hx]
  | some el =>
    cases hex : el.extract with
    | none => rw [ingestStep_throw hx hex]
    | some t =>
      by_cases hgate : t ≠ "" ∧ jsTrim t ≠ ""
      · by_cases heid : el.eid = ""
        · rw [ingestStep_fresh hx hex hgate heid]
          show (st.dom.elems.set i { el with eid := freshId st.nextFresh }).map
            Elem.extract = _
          rw [List.map_set]
          exact set_getElem?_self (by rw [List.getElem?_map, hx]; rfl)
        · rw [ingestStep_keep_id hx hex hgate heid]
      · rw [ingestStep_blank hx hex hgate]

lemma exists_extract_of_map_eq {l l2 : List Elem}
    (h : l.map Elem.extract = l2.map Elem.extract) {el : Elem} (hel : el ∈ l) :
    ∃ el2 ∈ l2, el2.extract = el.extract := by
  obtain ⟨i, hi⟩ := List.getElem?_of_mem hel
  have : (l2.map Elem.extract)[i]? = some el.extract := by
    rw [← h, List.getElem?_map, hi]
    rfl
  rw [List.getElem?_map] at this
  cases h2 : l2[i]? with
  | none => rw [h2] at this; cases this
  | some el2 =>
    rw [h2] at this
    exact ⟨el2, List.getElem?_mem h2, Option.some.inj this⟩

lemma ingestStep_store_origin (st : AppState) (i : Nat) :
    ∀ q ∈ (ingestStep st i).store, q ∈ st.store ∨ OriginOf st.dom q := by
  intro q hq
  cases hx : st.dom.elems[i]? with
  | none => rw [ingestStep_oob hx] at hq; exact Or.inl hq
  | some el =>
    cases hex : el.extract with
    | none => rw [ingestStep_throw hx hex] at hq; exact Or.inl hq
    | some t =>
      by_cases hgate : t ≠ "" ∧ jsTrim t ≠ ""
      · have hmem : el ∈ st.dom.elems := List.getElem?_mem hx
        have horigin : ∀ c : QueryData, c.text = jsTrim t → OriginOf st.dom c :=
          fun c hc => ⟨el, hmem, t, hex, hgate.2, hc⟩
        by_cases heid : el.eid = ""
        · rw [ingestStep_fresh hx hex hgate heid] at hq
          dsimp only at hq
          unfold addQueryToSession at hq
          split at hq
          · exact Or.inl hq
          · rcases List.mem_append.mp hq with hq1 | hq1
            · exact Or.inl hq1
            · rw [List.mem_singleton] at hq1
              exact Or.inr (horigin q (by rw [hq1]))
        · rw [ingestStep_keep_id hx hex hgate heid] at hq
          dsimp only at hq
          unfold addQueryToSession at hq
          split at hq
          · exact Or.inl hq
          · rcases List.mem_append.mp hq with hq1 | hq1
            · exact Or.inl hq1
            · rw [List.mem_singleton] at hq1
              exact Or.inr (horigin q (by rw [hq1]))
      · rw [ingestStep_blank hx hex hgate] at hq
        exact Or.inl hq

lemma foldl_ingest_origin (dom0 : Dom) :
    ∀ (is : List Nat) (st : AppState),
      st.dom.elems.map Elem.extract = dom0.elems.map Elem.extract →
      (∀ q ∈ st.store, OriginOf dom0 q) →
      ∀ q ∈ (is.foldl ingestStep st).store, OriginOf dom0 q := by
  intro is
  induction is with
  | nil => intro st _ hstore q hq; exact hstore q hq
  | cons i is ih =>
    intro st hext hstore q hq
    refine ih (ingestStep st i) ?_ ?_ q hq
    · rw [ingestStep_extract_map, hext]
    · intro q' hq'
      rcases ingestStep_store_origin st i q' hq' with h | h
      · exact hstore q' h
      · obtain ⟨el, hel, t, hext2, htr, htx⟩ := h
        obtain ⟨el2, hel2, hee⟩ := exists_extract_of_map_eq hext hel
        exact ⟨el2, hel2, t, by rw [hee, hext2], htr, htx⟩

lemma ingestAll_origin (dom0 : Dom) (fresh : Nat) :
    ∀ q ∈ (ingestAll ⟨dom0, [], fresh⟩).store, OriginOf dom0 q := by
  intro q hq
  exact foldl_ingest_origin dom0 _ ⟨dom0, [], fresh⟩ rfl (by intro q' h; cases h) q hq

lemma resolveTarget_snd_text (dom : Dom) (q : QueryData) :
    (resolveTarget dom q).2.text = q.text := by
  unfold resolveTarget
  repeat' split
  all_goals rfl

lemma rebuildStep_q_text (dom : Dom) (idx : Nat) (q : QueryData)
    (entries : List NavEntry) :
    (rebuildStep dom idx q entries).2.1.text = q.text := by
  unfold rebuildStep
  dsimp only
  split
  · exact resolveTarget_snd_text dom q
  · exact resolveTarget_snd_text dom q

lemma rebuildGo_store_mem :
    ∀ (qs : List QueryData) (dom : Dom) (idx : Nat) (entries : List NavEntry)
      (r : QueryData), r ∈ (rebuildGo dom idx qs entries).2.1 →
      ∃ q ∈ qs, r.text = q.text := by
  intro qs
  induction qs with
  | nil => intro dom idx entries r hr; simp [rebuildGo] at hr
  | cons q qs ih =>
    intro dom idx entries r hr
    have hq1 := rebuildStep_q_text dom idx q entries
    rcases hs : rebuildStep dom idx q entries with ⟨dom1, q1, entries1⟩
    rw [hs] at hq1
    rw [rebuildGo, hs] at hr
    dsimp only at hr
    rcases hg : rebuildGo dom1 (idx + 1) qs entries1 with ⟨dom2, qs2, entries2⟩
    rw [hg] at hr
    dsimp only at hr hq1
    rcases List.mem_cons.mp hr with rfl | hr2
    · exact ⟨q, List.mem_cons_self q qs, hq1⟩
    · obtain ⟨q', hq', ht⟩ := ih dom1 (idx + 1) entries1 r (by rw [hg]; exact hr2)
      exact ⟨q', List.mem_cons_of_mem q hq', ht⟩

/-- Every record in the store produced by `processChatElements` from an
empty session store was extracted from the tree it ran against. -/
lemma processChatElements_from_empty_origin (dom0 : Dom) (fresh : Nat) :
    ∀ q ∈ (processChatElements ⟨dom0, [], fresh⟩).1.store, OriginOf dom0 q := by
  intro q hq
  unfold processChatElements at hq
  dsimp only at hq
  unfold rebuildNavigationFromSession at hq
  rcases hg : rebuildGo (ingestAll ⟨dom0, [], fresh⟩).dom 0
      (validateSessionQueries (ingestAll ⟨dom0, [], fresh⟩).dom
        (ingestAll ⟨dom0, [], fresh⟩).store) [] with ⟨dom2, store2, entries2⟩
  rw [hg] at hq
  dsimp only at hq
  obtain ⟨q1, hq1, ht1⟩ := rebuildGo_store_mem _ _ _ _ q (by rw [hg]; exact hq)
  obtain ⟨q2, hq2, _, ht2, _⟩ := mem_validate_source hq1
  have horigin := ingestAll_origin dom0 fresh q2 hq2
  obtain ⟨el, hel, t, hext, htr, htx⟩ := horigin
  exact ⟨el, hel, t, hext, htr, by rw [ht1, ht2, htx]⟩

/-- C7: an address change that resolves to the same provider empties
`sessionQueries` and repopulates it by a fresh cycle against the new tree
only — the resulting page state runs `processChatElements` on an empty
store, and every record in the new store carries text extracted from an
element of the new tree. -/
theorem C7_same_provider_reset (resolve : String → Option String) (newUrl : String)
    (ps : PageState) (p : String)
    (hdiff : newUrl ≠ ps.currentUrl) (hres : resolve newUrl = some p)
    (hsame : ps.providerName = some p) :
    (handleUrlChange resolve newUrl ps).1.app =
      (processChatElements { ps.app with store := [] }).1 ∧
    (handleUrlChange resolve newUrl ps).2 =
      some (processChatElements { ps.app with store := [] }).2 ∧
    ∀ q ∈ (handleUrlChange resolve newUrl ps).1.app.store,
      ∃ el ∈ ps.app.dom.elems, ∃ t, el.extract = some t ∧ jsTrim t ≠ "" ∧
        q.text = jsTrim t := by
  have hrun : handleUrlChange resolve newUrl ps =
      ({ currentUrl := newUrl, providerName := ps.providerName
         app := (processChatElements { ps.app with store := [] }).1 },
       some (processChatElements { ps.app with store := [] }).2) := by
    unfold handleUrlChange
    rw [if_neg hdiff, hres]
    dsimp only
    rw [if_pos hsame]
    rfl
  rw [hrun]
  refine ⟨rfl, rfl, ?_⟩
  intro q hq
  dsimp only at hq
  have : { ps.app with store := ([] : List QueryData) } =
      (⟨ps.app.dom, [], ps.app.nextFresh⟩ : AppState) := rfl
  rw [this] at hq
  exact processChatElements_from_empty_origin ps.app.dom ps.app.nextFresh q hq

/-- C7 witness: a concrete same-provider navigation runs the fresh cycle
on an emptied store (the stale record does not survive). -/
theorem C7_same_provider_reset_witness :
    (handleUrlChange (fun u => if u = "https://chat/2" then some "chatgpt" else none)
        "https://chat/2"
        { currentUrl := "https://chat/1", providerName := some "chatgpt"
          app := ⟨⟨[⟨"e1", some "hi there", "hi there"⟩]⟩,
            [⟨"old", "stale", "old", 0⟩], 0⟩ }).1.app =
      (processChatElements
        { (⟨⟨[⟨"e1", some "hi there", "hi there"⟩]⟩,
            [⟨"old", "stale", "old", 0⟩], 0⟩ : AppState) with store := [] }).1 :=
  (C7_same_provider_reset (fun u => if u = "https://chat/2" then some "chatgpt" else none)
    "https://chat/2"
    { currentUrl := "https://chat/1", providerName := some "chatgpt"
      app := ⟨⟨[⟨"e1", some "hi there", "hi there"⟩]⟩, [⟨"old", "stale", "old", 0⟩], 0⟩ }
    "chatgpt" (by decide) (by decide) rfl).1

/-! ## C3: idempotence of the full cycle -/

lemma addQuery_clash {s : List QueryData} {c : QueryData}
    (h : ∃ q ∈ s, q.qid = c.qid ∨ q.text = c.text) :
    addQueryToSession s c = (false, s) := by
  unfold addQueryToSession
  rw [if_pos]
  rcases h with ⟨q, hq, hor⟩
  refine List.any_eq_true.mpr ⟨q, hq, ?_⟩
  rcases hor with h1 | h1 <;> simp [h1]

lemma addQuery_snd_mem {s : List QueryData} {c q : QueryData}
    (h : q ∈ (addQueryToSession s c).2) : q ∈ s ∨ q = c := by
  unfold addQueryToSession at h
  split at h
  · exact Or.inl h
  · rcases List.mem_append.mp h with h1 | h1
    · exact Or.inl h1
    · exact Or.inr (List.mem_singleton.mp h1)

lemma addQuery_snd_superset {s : List QueryData} {c q : QueryData}
    (h : q ∈ s) : q ∈ (addQueryToSession s c).2 := by
  unfold addQueryToSession
  split
  · exact h
  · exact List.mem_append.mpr (Or.inl h)

lemma addQuery_covers {s : List QueryData} (c : QueryData) :
    ∃ q ∈ (addQueryToSession s c).2, q.qid = c.qid ∨ q.text = c.text := by
  unfold addQueryToSession
  by_cases hany : (s.any fun q => q.qid = c.qid || q.text = c.text) = true
  · rw [if_pos hany]
    obtain ⟨q, hq, hor⟩ := List.any_eq_true.mp hany
    refine ⟨q, hq, ?_⟩
    rcases Bool.or_eq_true_iff.mp hor with h1 | h1
    · exact Or.inl (by simpa using h1)
    · exact Or.inr (by simpa using h1)
  · rw [if_neg hany]
    exact ⟨c, List.mem_append.mpr (Or.inr (List.mem_singleton.mpr rfl)), Or.inl rfl⟩

lemma getElem?_some_lt {α : Type} {l : List α} {i : Nat} {a : α}
    (h : l[i]? = some a) : i < l.length := by
  by_contra hc
  rw [List.getElem?_eq_none (by omega)] at h
  cases h

lemma mem_set_of_ne {α : Type} {l : List α} {a b : α} {i : Nat}
    (ha : a ∈ l) (hne : l[i]? ≠ some a) : a ∈ l.set i b := by
  obtain ⟨j, hj⟩ := List.getElem?_of_mem ha
  have hji : j ≠ i := by
    intro h
    exact hne (h ▸ hj)
  exact List.getElem?_mem (by rw [List.getElem?_set_ne (Ne.symm hji)]; exact hj)

/-- Invariant of the store after ingestion from an empty session: every
record is bound to a located element that carries the record's id and
confirms its text. -/
def RecBound (st : AppState) (q : QueryData) : Prop :=
  q.elementId = q.qid ∧ q.qid ≠ "" ∧
  ∃ el ∈ st.dom.elems, el.eid = q.qid ∧ confirmText el q = true

/-- Invariant of a processed element: if it is non-blank extractable, it
carries an id and the store holds a record clashing with its candidate. -/
def ElemCovered (st : AppState) (el : Elem) : Prop :=
  ∀ t, el.extract = some t → t ≠ "" → jsTrim t ≠ "" →
    el.eid ≠ "" ∧ ∃ q ∈ st.store, q.qid = el.eid ∨ q.text = jsTrim t

lemma confirmText_of_extract {el : Elem} {t : String} (hex : el.extract = some t)
    (ht : t ≠ "") {q : QueryData} (hq : q.text = jsTrim t) :
    confirmText el q = true := by
  refine (confirmText_true_iff el q).mpr ⟨t, hex, ht, ?_⟩
  rw [hq, jsTrim_idem]

lemma ingest_inv (dom0 : Dom) (fresh : Nat) :
    ∀ k : Nat,
      (∀ q ∈ ((List.range k).foldl ingestStep ⟨dom0, [], fresh⟩).store,
        RecBound ((List.range k).foldl ingestStep ⟨dom0, [], fresh⟩) q) ∧
      (∀ i, i < k → ∀ el,
        ((List.range k).foldl ingestStep ⟨dom0, [], fresh⟩).dom.elems[i]? = some el →
        ElemCovered ((List.range k).foldl ingestStep ⟨dom0, [], fresh⟩) el) := by
  intro k
  induction k with
  | zero =>
    constructor
    · intro q hq
      cases hq
    · intro i hi
      omega
  | succ k ih =>
    obtain ⟨ihb, ihc⟩ := ih
    have hfold : (List.range (k + 1)).foldl ingestStep ⟨dom0, [], fresh⟩ =
        ingestStep ((List.range k).foldl ingestStep ⟨dom0, [], fresh⟩) k := by
      rw [List.range_succ, List.foldl_append]
      rfl
    rw [hfold]
    set st := (List.range k).foldl ingestStep ⟨dom0, [], fresh⟩ with hst
    clear_value st
    cases hx : st.dom.elems[k]? with
    | none =>
      rw [ingestStep_oob hx]
      refine ⟨ihb, ?_⟩
      intro i hi el hel
      rcases Nat.lt_or_ge i k with h | h
      · exact ihc i h el hel
      · have : i = k := by omega
        subst this
        rw [hx] at hel
        cases hel
    | some el0 =>
      cases hex : el0.extract with
      | none =>
        rw [ingestStep_throw hx hex]
        refine ⟨ihb, ?_⟩
        intro i hi el hel
        rcases Nat.lt_or_ge i k with h | h
        · exact ihc i h el hel
        · have : i = k := by omega
          subst this
          rw [hx] at hel
          cases Option.some.inj hel
          intro t hext
          rw [hex] at hext
          cases hext
      | some t =>
        by_cases hgate : t ≠ "" ∧ jsTrim t ≠ ""
        · by_cases heid : el0.eid = ""
          · -- fresh-id assignment then candidate add
            rw [ingestStep_fresh hx hex hgate heid]
            set f := freshId st.nextFresh with hf
            set el1 : Elem := { el0 with eid := f } with hel1
            set c : QueryData := ⟨f, jsTrim t, f, st.store.length⟩ with hc
            have hklen : k < st.dom.elems.length := getElem?_some_lt hx
            have hget1 : (st.dom.elems.set k el1)[k]? = some el1 :=
              List.getElem?_set_self hklen
            have hmem1 : el1 ∈ st.dom.elems.set k el1 := List.getElem?_mem hget1
            constructor
            · intro q hq
              rcases addQuery_snd_mem hq with hq1 | hq1
              · obtain ⟨he1, he2, elw, helw, hw1, hw2⟩ := ihb q hq1
                refine ⟨he1, he2, elw, ?_, hw1, hw2⟩
                refine mem_set_of_ne helw ?_
                rw [hx]
                intro hcon
                have := Option.some.inj hcon
                rw [← this] at hw1
                rw [heid] at hw1
                exact he2 (hw1.symm ▸ rfl)
              · subst hq1
                refine ⟨rfl, freshId_ne_empty _, el1, hmem1, rfl, ?_⟩
                exact confirmText_of_extract (by rw [hel1]; exact hex) hgate.1 rfl
            · intro i hi el hel
              rcases Nat.lt_or_ge i k with h | h
              · rw [List.getElem?_set_ne (by omega)] at hel
                intro t2 ht2 ht2b ht2c
                obtain ⟨hn, q, hq, hor⟩ := ihc i h el hel t2 ht2 ht2b ht2c
                exact ⟨hn, q, addQuery_snd_superset hq, hor⟩
              · have : i = k := by omega
                subst this
                rw [hget1] at hel
                cases Option.some.inj hel
                intro t2 ht2 ht2b ht2c
                have ht2eq : t2 = t := by
                  rw [hel1] at ht2
                  dsimp at ht2
                  rw [hex] at ht2
                  exact (Option.some.inj ht2).symm
                subst ht2eq
                refine ⟨by rw [hel1]; exact freshId_ne_empty _, ?_⟩
                obtain ⟨q, hq, hor⟩ := addQuery_covers (s := st.store) c
                refine ⟨q, hq, ?_⟩
                rcases hor with h1 | h1
                · exact Or.inl (by rw [h1, hc, hel1])
                · exact Or.inr (by rw [h1, hc])
          · -- element already carries an id
            rw [ingestStep_keep_id hx hex hgate heid]
            set c : QueryData := ⟨el0.eid, jsTrim t, el0.eid, st.store.length⟩ with hc
            have hmem0 : el0 ∈ st.dom.elems := List.getElem?_mem hx
            constructor
            · intro q hq
              rcases addQuery_snd_mem hq with hq1 | hq1
              · exact ihb q hq1
              · subst hq1
                refine ⟨rfl, heid, el0, hmem0, rfl, ?_⟩
                exact confirmText_of_extract hex hgate.1 rfl
            · intro i hi el hel
              rcases Nat.lt_or_ge i k with h | h
              · intro t2 ht2 ht2b ht2c
                obtain ⟨hn, q, hq, hor⟩ := ihc i h el hel t2 ht2 ht2b ht2c
                exact ⟨hn, q, addQuery_snd_superset hq, hor⟩
              · have : i = k := by omega
                subst this
                rw [hx] at hel
                cases Option.some.inj hel
                intro t2 ht2 ht2b ht2c
                have ht2eq : t2 = t := by
                  rw [hex] at ht2
                  exact (Option.some.inj ht2).symm
                subst ht2eq
                refine ⟨heid, ?_⟩
                obtain ⟨q, hq, hor⟩ := addQuery_covers (s := st.store) c
                exact ⟨q, hq, hor⟩
        · rw [ingestStep_blank hx hex hgate]
          refine ⟨ihb, ?_⟩
          intro i hi el hel
          rcases Nat.lt_or_ge i k with h | h
          · exact ihc i h el hel
          · have : i = k := by omega
            subst this
            rw [hx] at hel
            cases Option.some.inj hel
            intro t2 ht2 ht2b ht2c
            rw [hex] at ht2
            have : t2 = t := (Option.some.inj ht2).symm
            subst this
            exact absurd ⟨ht2b, ht2c⟩ hgate

lemma foldl_ingest_extract_map :
    ∀ (is : List Nat) (st : AppState),
      (is.foldl ingestStep st).dom.elems.map Elem.extract =
        st.dom.elems.map Elem.extract := by
  intro is
  induction is with
  | nil => intro st; rfl
  | cons i is ih =>
    intro st
    rw [List.foldl_cons, ih, ingestStep_extract_map]

lemma ingestAll_length (st : AppState) :
    (ingestAll st).dom.elems.length = st.dom.elems.length := by
  have h := foldl_ingest_extract_map (List.range st.dom.elems.length) st
  have := congrArg List.length h
  simpa [ingestAll] using this

lemma validateOne_fst_of_exists {dom : Dom} {q : QueryData}
    (h : ∃ el ∈ dom.elems, confirmText el q = true) :
    (validateOne dom q).1 = true := by
  unfold validateOne
  dsimp only
  by_cases hid : (if q.elementId ≠ "" then
      match getElementById dom q.elementId with
      | some el => confirmText el q
      | none => false
    else false) = true
  · rw [if_pos hid]
  · rw [if_neg hid]
    cases hs : scanFind dom.elems q with
    | some el => rfl
    | none =>
      exfalso
      have hns : (scanFind dom.elems q).isSome := by
        unfold scanFind
        exact find?_isSome_of_exists (by simpa using h)
      rw [hs] at hns
      cases hns

lemma validate_eq_map {dom : Dom} {store : List QueryData}
    (h : ∀ q ∈ store, (validateOne dom q).1 = true) :
    validateSessionQueries dom store = store.map (fun q => (validateOne dom q).2) := by
  unfold validateSessionQueries
  dsimp only
  have hfil : (store.map (validateOne dom)).filter (fun r => r.1) =
      store.map (validateOne dom) := by
    refine List.filter_eq_self.mpr ?_
    intro a ha
    rcases List.mem_map.mp ha with ⟨q, hq, rfl⟩
    simpa using h q hq
  rw [hfil]
  rw [if_pos (by simp)]
  rw [List.map_map]
  rfl

lemma validateOne_idem {dom : Dom} {q : QueryData}
    (h : (validateOne dom q).1 = true) :
    validateOne dom (validateOne dom q).2 = (true, (validateOne dom q).2) := by
  by_cases hid : (if q.elementId ≠ "" then
      match getElementById dom q.elementId with
      | some el => confirmText el q
      | none => false
    else false) = true
  · have hv : validateOne dom q = (true, q) := by
      unfold validateOne
      dsimp only
      rw [if_pos hid]
    rw [hv]
    dsimp only
    exact hv
  · have hv : validateOne dom q =
        (match scanFind dom.elems q with
         | some el =>
           (true,
            if el.eid ≠ "" ∧ el.eid ≠ q.elementId then { q with elementId := el.eid }
            else q)
         | none => (false, q)) := by
      unfold validateOne
      dsimp only
      rw [if_neg hid]
    cases hs : scanFind dom.elems q with
    | none =>
      rw [hv, hs] at h
      cases h
    | some el =>
      rw [hs] at hv
      dsimp only at hv
      by_cases hupd : el.eid ≠ "" ∧ el.eid ≠ q.elementId
      · rw [if_pos hupd] at hv
        rw [hv]
        dsimp only
        unfold validateOne
        dsimp only
        by_cases hid2 : (if ({ q with elementId := el.eid } : QueryData).elementId ≠ ""
            then
              match getElementById dom ({ q with elementId := el.eid } : QueryData).elementId with
              | some e2 => confirmText e2 { q with elementId := el.eid }
              | none => false
            else false) = true
        · rw [if_pos hid2]
        · rw [if_neg hid2]
          have hsc2 : scanFind dom.elems { q with elementId := el.eid } = some el := by
            unfold scanFind
            have hfn : (fun e => confirmText e { q with elementId := el.eid }) =
                (fun e => confirmText e q) := by
              funext e
              exact confirmText_elementId e q el.eid
            rw [hfn]
            exact hs
          rw [hsc2]
          dsimp only
          rw [if_neg (by simp)]
      · rw [if_neg hupd] at hv
        rw [hv]
        dsimp only
        exact hv

lemma validateOne_snd_bound {dom : Dom} {q : QueryData}
    (hb : q.elementId = q.qid ∧ q.qid ≠ "" ∧ ∃ el ∈ dom.elems, el.eid = q.qid) :
    (validateOne dom q).2.elementId ≠ "" ∧
    ∃ el ∈ dom.elems, el.eid = (validateOne dom q).2.elementId := by
  obtain ⟨h1, h2, elw, helw, hew⟩ := hb
  have hq : q.elementId ≠ "" ∧ ∃ el ∈ dom.elems, el.eid = q.elementId :=
    ⟨by rw [h1]; exact h2, elw, helw, by rw [hew, h1]⟩
  by_cases hid : (if q.elementId ≠ "" then
      match getElementById dom q.elementId with
      | some el => confirmText el q
      | none => false
    else false) = true
  · have hv : validateOne dom q = (true, q) := by
      unfold validateOne
      dsimp only
      rw [if_pos hid]
    rw [hv]
    exact hq
  · have hv : validateOne dom q =
        (match scanFind dom.elems q with
         | some el =>
           (true,
            if el.eid ≠ "" ∧ el.eid ≠ q.elementId then { q with elementId := el.eid }
            else q)
         | none => (false, q)) := by
      unfold validateOne
      dsimp only
      rw [if_neg hid]
    cases hs : scanFind dom.elems q with
    | none =>
      rw [hs] at hv
      rw [hv]
      exact hq
    | some el =>
      rw [hs] at hv
      dsimp only at hv
      by_cases hupd : el.eid ≠ "" ∧ el.eid ≠ q.elementId
      · rw [if_pos hupd] at hv
        rw [hv]
        exact ⟨hupd.1, el, List.mem_of_find?_eq_some hs, rfl⟩
      · rw [if_neg hupd] at hv
        rw [hv]
        exact hq

lemma ingestStep_fix {st : AppState} {i : Nat}
    (hcov : ∀ el, st.dom.elems[i]? = some el → ElemCovered st el) :
    ingestStep st i = st := by
  cases hx : st.dom.elems[i]? with
  | none => exact ingestStep_oob hx
  | some el =>
    cases hex : el.extract with
    | none => exact ingestStep_throw hx hex
    | some t =>
      by_cases hgate : t ≠ "" ∧ jsTrim t ≠ ""
      · obtain ⟨hne, q, hq, hor⟩ := hcov el hx t hex hgate.1 hgate.2
        rw [ingestStep_keep_id hx hex hgate hne]
        rw [addQuery_clash ⟨q, hq, hor⟩]
      · exact ingestStep_blank hx hex hgate

lemma foldl_ingest_fix :
    ∀ (is : List Nat) (st : AppState),
      (∀ i ∈ is, ∀ el, st.dom.elems[i]? = some el → ElemCovered st el) →
      is.foldl ingestStep st = st := by
  intro is
  induction is with
  | nil => intro st _; rfl
  | cons i is ih =>
    intro st h
    rw [List.foldl_cons, ingestStep_fix (h i (List.mem_cons_self i is))]
    exact ih st (fun j hj => h j (List.mem_cons_of_mem i hj))

lemma ingestAll_fix {st : AppState}
    (hcov : ∀ el ∈ st.dom.elems, ElemCovered st el) : ingestAll st = st := by
  unfold ingestAll
  exact foldl_ingest_fix _ st (fun i _ el hel => hcov el (List.getElem?_mem hel))

/-- A record whose stored `elementId` resolves by id against the tree. -/
def BoundIn (dom : Dom) (q : QueryData) : Prop :=
  q.elementId ≠ "" ∧ ∃ el ∈ dom.elems, el.eid = q.elementId

lemma findElemIdx_of_bound {dom : Dom} {q : QueryData} (h : BoundIn dom q) :
    ∃ n el, findElemIdxById dom q.elementId = some n ∧
      dom.elems[n]? = some el ∧ el.eid ≠ "" := by
  obtain ⟨hne, el, hel, he⟩ := h
  have hsome : (dom.elems.findIdx? (fun e => e.eid = q.elementId)).isSome :=
    findIdx?_isSome_of_exists ⟨el, hel, by simp [he]⟩
  cases hfi : dom.elems.findIdx? (fun e => e.eid = q.elementId) with
  | none => rw [hfi] at hsome; cases hsome
  | some n =>
    obtain ⟨x, hx, hpx⟩ := findIdx?_spec hfi
    have hxe : x.eid = q.elementId := by simpa using hpx
    refine ⟨n, x, ?_, hx, by rw [hxe]; exact hne⟩
    unfold findElemIdxById
    rw [if_neg hne]
    exact hfi

lemma addNavItemLive_dom {dom : Dom} {entries : List NavEntry} {s e : String}
    {n : Nat} {el : Elem} (hel : dom.elems[n]? = some el) (hne : el.eid ≠ "") :
    (addNavItemLive dom entries s e n).1 = dom := by
  unfold addNavItemLive
  rw [hel]
  dsimp only
  rw [if_neg hne]
  dsimp only
  split
  · rfl
  · rfl

lemma rebuildStep_no_mut {dom : Dom} {idx : Nat} {q : QueryData}
    {entries : List NavEntry} (hb : BoundIn dom q) :
    (rebuildStep dom idx q entries).1 = dom ∧
    (rebuildStep dom idx q entries).2.1 = q := by
  obtain ⟨n, el, hfi, hel, hne⟩ := findElemIdx_of_bound hb
  have hres : resolveTarget dom q = (some n, q) := by
    unfold resolveTarget
    rw [if_pos hb.1, hfi]
  unfold rebuildStep
  dsimp only
  rw [hres]
  dsimp only
  exact ⟨addNavItemLive_dom hel hne, rfl⟩

lemma rebuildGo_no_mut :
    ∀ (qs : List QueryData) (dom : Dom) (idx : Nat) (entries : List NavEntry),
      (∀ q ∈ qs, BoundIn dom q) →
      (rebuildGo dom idx qs entries).1 = dom ∧
      (rebuildGo dom idx qs entries).2.1 = qs := by
  intro qs
  induction qs with
  | nil => intro dom idx entries _; exact ⟨rfl, rfl⟩
  | cons q qs ih =>
    intro dom idx entries h
    obtain ⟨hd, hq⟩ := @rebuildStep_no_mut dom idx q entries
      (h q (List.mem_cons_self q qs))
    rw [rebuildGo]
    rcases hs : rebuildStep dom idx q entries with ⟨dom1, q1, entries1⟩
    rw [hs] at hd hq
    dsimp only at hd hq ⊢
    subst hd
    subst hq
    obtain ⟨hd2, hq2⟩ := ih dom1 (idx + 1) entries1
      (fun r hr => h r (List.mem_cons_of_mem q1 hr))
    rcases hg : rebuildGo dom1 (idx + 1) qs entries1 with ⟨dom2, qs2, entries2⟩
    rw [hg] at hd2 hq2
    dsimp only at hd2 hq2
    dsimp only
    exact ⟨hd2, by rw [hq2]⟩

lemma processChatElements_eq (st : AppState) {d : Dom} {s : List QueryData}
    {e : List NavEntry}
    (h : rebuildNavigationFromSession (ingestAll st).dom (ingestAll st).store =
      (d, s, e)) :
    processChatElements st = ({ ingestAll st with dom := d, store := s }, e) := by
  unfold processChatElements
  dsimp only
  rw [h]

/-- C3 counterexample: with a stale session record whose id collides with
a live element of different text, the first cycle drops both the record
(text mismatch) and the fresh candidate (id clash), producing an empty
navigation; the second cycle then ingests the candidate and produces one
entry — two runs differ from one. -/
theorem C3_counterexample :
    (processChatElements
        (processChatElements
          ⟨⟨[⟨"e1", some "new", "New question"⟩]⟩, [⟨"e1", "old", "e1", 0⟩], 0⟩).1).2 ≠
      (processChatElements
        ⟨⟨[⟨"e1", some "new", "New question"⟩]⟩, [⟨"e1", "old", "e1", 0⟩], 0⟩).2 := by
  decide

/-- C3 (amended): starting from an empty session store (a fresh page
view), the full cycle is idempotent — the second run reproduces the
first's state and Navigation Entries exactly.  For arbitrary stale
session states the claim fails (see the counterexample): ingestion runs
before revalidation, so a stale record can suppress a candidate for one
cycle and vanish only afterwards. -/
theorem C3_idempotent_from_empty (dom0 : Dom) (fresh : Nat) :
    processChatElements (processChatElements ⟨dom0, [], fresh⟩).1 =
      processChatElements ⟨dom0, [], fresh⟩ := by
  set a := ingestAll ⟨dom0, [], fresh⟩ with ha
  obtain ⟨hbound, hcover⟩ := ingest_inv dom0 fresh dom0.elems.length
  rw [show (List.range dom0.elems.length).foldl ingestStep ⟨dom0, [], fresh⟩ = a
    from rfl] at hbound hcover
  have hlen : a.dom.elems.length = dom0.elems.length := ingestAll_length _
  have hcov : ∀ el ∈ a.dom.elems, ElemCovered a el := by
    intro el hel
    obtain ⟨i, hi⟩ := List.getElem?_of_mem hel
    have hilt : i < dom0.elems.length := by
      have := getElem?_some_lt hi
      omega
    exact hcover i hilt el hi
  have hfst : ∀ q ∈ a.store, (validateOne a.dom q).1 = true := by
    intro q hq
    obtain ⟨_, _, el, hel, _, hconf⟩ := hbound q hq
    exact validateOne_fst_of_exists ⟨el, hel, hconf⟩
  set v := a.store.map (fun q => (validateOne a.dom q).2) with hv
  have hval1 : validateSessionQueries a.dom a.store = v := validate_eq_map hfst
  have hvbound : ∀ r ∈ v, BoundIn a.dom r := by
    intro r hr
    rcases List.mem_map.mp hr with ⟨q, hq, rfl⟩
    obtain ⟨h1, h2, el, hel, he, _⟩ := hbound q hq
    obtain ⟨hb1, hb2⟩ := validateOne_snd_bound ⟨h1, h2, el, hel, he⟩
    exact ⟨hb1, hb2⟩
  obtain ⟨hrd, hrs⟩ := rebuildGo_no_mut v a.dom 0 [] hvbound
  have hreb : rebuildNavigationFromSession a.dom a.store =
      (a.dom, v, (rebuildGo a.dom 0 v []).2.2) := by
    unfold rebuildNavigationFromSession
    rw [hval1]
    rcases hg : rebuildGo a.dom 0 v [] with ⟨d, s, e⟩
    rw [hg] at hrd hrs
    dsimp only at hrd hrs
    rw [hrd, hrs]
  have hrun1 : processChatElements ⟨dom0, [], fresh⟩ =
      (⟨a.dom, v, a.nextFresh⟩, (rebuildGo a.dom 0 v []).2.2) := by
    have := processChatElements_eq ⟨dom0, [], fresh⟩ hreb
    rw [this]
  have hcov1 : ∀ el ∈ (⟨a.dom, v, a.nextFresh⟩ : AppState).dom.elems,
      ElemCovered ⟨a.dom, v, a.nextFresh⟩ el := by
    intro el hel t hex ht htr
    obtain ⟨hne, q, hq, hor⟩ := hcov el hel t hex ht htr
    refine ⟨hne, (validateOne a.dom q).2, List.mem_map_of_mem _ hq, ?_⟩
    rcases hor with h1 | h1
    · exact Or.inl (by rw [validateOne_snd_qid]; exact h1)
    · exact Or.inr (by rw [validateOne_snd_text]; exact h1)
  have hing2 : ingestAll ⟨a.dom, v, a.nextFresh⟩ = ⟨a.dom, v, a.nextFresh⟩ :=
    ingestAll_fix hcov1
  have hval2 : validateSessionQueries a.dom v = v := by
    have hfst2 : ∀ r ∈ v, (validateOne a.dom r).1 = true := by
      intro r hr
      rcases List.mem_map.mp hr with ⟨q, hq, rfl⟩
      have := validateOne_idem (hfst q hq)
      rw [this]
    rw [validate_eq_map hfst2]
    have hpt : ∀ r ∈ v, (validateOne a.dom r).2 = r := by
      intro r hr
      rcases List.mem_map.mp hr with ⟨q, hq, rfl⟩
      have := validateOne_idem (hfst q hq)
      rw [this]
    calc v.map (fun r => (validateOne a.dom r).2) = v.map id :=
          List.map_congr_left hpt
      _ = v := List.map_id v
  have hreb2 : rebuildNavigationFromSession
      (ingestAll ⟨a.dom, v, a.nextFresh⟩).dom
      (ingestAll ⟨a.dom, v, a.nextFresh⟩).store =
      (a.dom, v, (rebuildGo a.dom 0 v []).2.2) := by
    rw [hing2]
    unfold rebuildNavigationFromSession
    dsimp only
    rw [hval2]
    rcases hg : rebuildGo a.dom 0 v [] with ⟨d, s, e⟩
    rw [hg] at hrd hrs
    dsimp only at hrd hrs
    rw [hrd, hrs]
  have hrun2 : processChatElements ⟨a.dom, v, a.nextFresh⟩ =
      (⟨a.dom, v, a.nextFresh⟩, (rebuildGo a.dom 0 v []).2.2) := by
    have := processChatElements_eq ⟨a.dom, v, a.nextFresh⟩ hreb2
    rw [this, hing2]
  rw [hrun1]
  exact hrun2

end QuickScroll
